import Mathlib

/-!
Shallow embedding of the CogniLoop exam-paper generation orchestrator
(backend/app/services/exam_paper_service.py, exam_paper_task.py,
backend/app/graph/exam_paper_generator.py and backend/app/graph/exam_agents/*),
together with theorems checking the natural-language specification against it.

Conventions of the embedding:
- Python float arithmetic is modelled with exact rationals (ℚ); Python
  `round(x, n)` (banker's rounding) is modelled by `pyRound`, `int(x)` by
  `pyInt` (truncation toward zero).
- Database rows and LLM calls are external collaborators: they enter as
  parameters (a list of rows, oracle functions, `Except` results for calls
  that may raise).
- Python dicts are modelled as insertion-ordered association lists with
  unique keys.
-/

namespace CogniLoop

/-- Banker's rounding (round half to even) of a rational to an integer,
mirroring Python's built-in `round`. -/
def roundHalfEven (x : ℚ) : ℤ :=
  let f := Int.floor x
  let frac := x - f
  if frac < 1/2 then f
  else if 1/2 < frac then f + 1
  else if Even f then f else f + 1

/-- Python `round(x, ndigits)` on rationals. -/
def pyRound (x : ℚ) (ndigits : Nat) : ℚ :=
  (roundHalfEven (x * ((10 : ℚ) ^ ndigits)) : ℚ) / ((10 : ℚ) ^ ndigits)

/-- Python `int(x)`: truncation toward zero. -/
def pyInt (x : ℚ) : ℤ :=
  if x < 0 then Int.ceil x else Int.floor x

/-! ## Quota controller (services/exam_paper_service.py) -/

/-- Row of the `TeacherExamPermission` table: the owner's grant.
`monthly_quota = none` means the grant has no cap. -/
structure TeacherExamPermission where
  is_enabled : Bool
  monthly_quota : Option Int
  token_used : Int
deriving Repr, DecidableEq

/-- `ExamPermissionService.check_quota` (exam_paper_service.py:101-120).
The `perm` argument is the result of `get_permission` for the owner
(`none` when the owner has no grant row). -/
def check_quota (perm : Option TeacherExamPermission) (estimated_tokens : Int) :
    Bool × String :=
  match perm with
  | none => (false, "未获得仿高考组卷授权，请联系管理员")
  | some p =>
    if p.is_enabled = false then
      (false, "未获得仿高考组卷授权，请联系管理员")
    else
      match p.monthly_quota with
      | none => (true, "配额充足")
      | some cap =>
        let remaining := cap - p.token_used
        if remaining < estimated_tokens then
          (false, s!"本月 Token 配额不足（剩余 {remaining}，本次预估需 {estimated_tokens}）")
        else
          (true, "配额充足")

/-- `ExamPermissionService.consume_tokens` (exam_paper_service.py:122-128):
adds `tokens` to the owner's used counter; no grant row means no change. -/
def consume_tokens (perm : Option TeacherExamPermission) (tokens : Int) :
    Option TeacherExamPermission :=
  match perm with
  | none => none
  | some p => some { p with token_used := p.token_used + tokens }

/-- Iterated debits (a sequence of `consume_tokens` calls). -/
def consume_tokens_seq (perm : Option TeacherExamPermission) (amounts : List Int) :
    Option TeacherExamPermission :=
  amounts.foldl consume_tokens perm

/-- `estimate_tokens` (exam_paper_service.py:33-38); `avg` is the configured
`exam_agent_avg_tokens_per_question`. -/
def estimate_tokens (total_questions : Int) (solve_count : Int) (avg : Int) : Int :=
  pyInt ((total_questions : ℚ) * (avg : ℚ)
    * (1 + 1/2 + (solve_count : ℚ) * (3/10) + (solve_count : ℚ) * (3/10)) * (12/10))

/-! ## Data model (graph/exam_agents/schemas.py) -/

/-- `QuestionTypeConfig` (schemas.py). -/
structure QuestionTypeConfig where
  question_type : String
  count : Nat
  score_per_question : ℚ
deriving Repr, DecidableEq

/-- `DifficultyDistribution` (schemas.py). -/
structure DifficultyDistribution where
  easy : ℚ
  medium : ℚ
  hard : ℚ
deriving Repr, DecidableEq

/-- `PaperRequirement` (schemas.py); only the fields the orchestrator core
reads are modelled. -/
structure PaperRequirement where
  subject : String
  course_id : Nat
  target_region : String
  total_questions : Nat
  question_distribution : List QuestionTypeConfig
  target_difficulty : String
  difficulty_distribution : DifficultyDistribution
  use_hotspot : Bool
deriving Repr, DecidableEq

/-- `QuestionTask` (schemas.py). LLM-derived payloads (retrieved examples,
RAG context, hotspot material) are external data and are not needed by any
claim; the mutable retry fields and identity fields are kept. -/
structure QuestionTask where
  task_id : String
  question_type : String
  position_index : Nat
  position_label : String
  target_difficulty_level : String
  knowledge_point : String
  retry_feedback : Option String := none
  retry_count : Nat := 0
deriving Repr, DecidableEq

/-- `GeneratedQuestion` (schemas.py); `options` keeps the insertion order of
the Python dict. -/
structure GeneratedQuestion where
  task_id : String
  question_type : String
  question_text : String
  options : Option (List (String × String)) := none
  correct_answer : String
  explanation : String
  scoring_points : Option String := none
  knowledge_point : String
  target_difficulty_level : String
deriving Repr, DecidableEq

/-- `QualityCheckResult` (schemas.py). -/
structure QualityCheckResult where
  task_id : String
  passed : Bool
  rejection_reasons : List String
deriving Repr, DecidableEq

/-- `GradeResult` (schemas.py): one graded solve attempt. -/
structure GradeResult where
  is_correct : Option Bool := none
  partial_score : Option ℚ := none
deriving Repr, DecidableEq

/-- `DifficultyResult` (schemas.py). -/
structure DifficultyResult where
  task_id : String
  difficulty_coefficient : ℚ
  pass_count : Nat
  total_attempts : Nat
  decision : String
  feedback : Option String := none
  retry_count : Nat := 0
  difficulty_warning : Bool := false
deriving Repr, DecidableEq

/-! ## Difficulty calibrator (graph/exam_agents/difficulty_agent.py) -/

/-- `DIFFICULTY_TARGET_RANGES` (difficulty_agent.py:18-22), with the
dictionary `.get` default `(0.4, 0.75)` for unknown levels
(difficulty_agent.py:64). -/
def DIFFICULTY_TARGET_RANGES (level : String) : ℚ × ℚ :=
  if level = "easy" then (65/100, 1)
  else if level = "medium" then (40/100, 75/100)
  else if level = "hard" then (10/100, 50/100)
  else (40/100, 75/100)

/-- The target ranges exactly as the spec sentence words them
(easy≈[0.65,1.0], medium≈[0.40,0.75], hard≈[0.0,0.50]); kept separate from
the source definition so the two can be compared. -/
def SPEC_WORDED_TARGET_RANGES (level : String) : ℚ × ℚ :=
  if level = "easy" then (65/100, 1)
  else if level = "medium" then (40/100, 75/100)
  else if level = "hard" then (0, 50/100)
  else (40/100, 75/100)

/-- Membership of the objective-type set `{single_choice, multiple_choice,
fill_blank}` (difficulty_agent.py:48-52). -/
def is_objective (question_type : String) : Bool :=
  question_type == "single_choice" || question_type == "multiple_choice"
    || question_type == "fill_blank"

/-- The pass tally computed by `DifficultyAgent.run` (difficulty_agent.py:56,61). -/
def difficulty_pass_count (question_type : String)
    (grade_results : List GradeResult) : Nat :=
  if is_objective question_type then
    (grade_results.filter (fun g => g.is_correct == some true)).length
  else
    (grade_results.filter (fun g => decide ((g.partial_score.getD 0) ≥ 6/10))).length

/-- The difficulty coefficient computed by `DifficultyAgent.run`
(difficulty_agent.py:55-61): correct fraction for objective types, mean
partial score for free-form types.  (`g.partial_score or 0` maps `None` to
`0`.) -/
def difficulty_coefficient_of (question_type : String)
    (grade_results : List GradeResult) : ℚ :=
  let total : ℚ := grade_results.length
  if is_objective question_type then
    (difficulty_pass_count question_type grade_results : ℚ) / total
  else
    ((grade_results.map (fun g => g.partial_score.getD 0)).sum) / total

/-- Modelled from the spec: `exam_agents/prompts.py` is absent from `src/`
(it is imported by difficulty_agent.py but its source is not in the
repository snapshot).  The spec (§4.4) says the retry feedback carries a
reason and "a suggested adjustment" per direction of miss; the direction
strings themselves are computed in difficulty_agent.py which is in `src/`. -/
def DIFFICULTY_REASONS (key : String) : String × String :=
  if key = "too_easy" then ("模拟考生普遍答对，区分度不足", "提高思维量，增强干扰项")
  else ("模拟考生普遍答错，超出目标难度", "降低综合度，简化设问")

/-- Modelled from the spec: `exam_agents/prompts.py` is absent from `src/`.
The spec (§4.4) says feedback text names the coefficient, the target
interval, the direction of the miss and a suggested adjustment; the template
is modelled as the concatenation of those pieces, with the `direction`
argument (computed in difficulty_agent.py) inserted verbatim. -/
def DIFFICULTY_FEEDBACK_TEMPLATE (coefficient target_min target_max : ℚ)
    (direction reason suggestion : String) : String :=
  ("难度系数 " ++ toString coefficient ++ "，目标区间 [" ++ toString target_min
      ++ ", " ++ toString target_max ++ "]，判定")
    ++ direction
    ++ ("。原因：" ++ reason ++ "。建议：" ++ suggestion)

namespace DifficultyAgent

/-- `DifficultyAgent.run` (difficulty_agent.py:29-106): aggregates the K
grade outcomes into a coefficient and an approve/retry decision.  With no
grade outcomes it defaults to coefficient 0.5 and immediate approval. -/
def run (question : GeneratedQuestion) (grade_results : List GradeResult)
    (retry_count max_retry : Nat) : DifficultyResult :=
  if grade_results.isEmpty then
    { task_id := question.task_id
      difficulty_coefficient := 1/2
      pass_count := 0
      total_attempts := 0
      decision := "approve"
      feedback := some "无评分数据，默认放行"
      retry_count := retry_count }
  else
    let total := grade_results.length
    let pass_count := difficulty_pass_count question.question_type grade_results
    let coefficient := difficulty_coefficient_of question.question_type grade_results
    let range := DIFFICULTY_TARGET_RANGES question.target_difficulty_level
    let target_min := range.1
    let target_max := range.2
    let in_range : Bool := decide (target_min ≤ coefficient ∧ coefficient ≤ target_max)
    if in_range || decide (retry_count ≥ max_retry) then
      { task_id := question.task_id
        difficulty_coefficient := pyRound coefficient 4
        pass_count := pass_count
        total_attempts := total
        decision := "approve"
        feedback := none
        retry_count := retry_count
        difficulty_warning := !in_range }
    else
      let direction := if coefficient > target_max then "偏简单" else "偏困难"
      let reason_key := if coefficient > target_max then "too_easy" else "too_hard"
      let reason_info := DIFFICULTY_REASONS reason_key
      { task_id := question.task_id
        difficulty_coefficient := pyRound coefficient 4
        pass_count := pass_count
        total_attempts := total
        decision := "retry"
        feedback := some (DIFFICULTY_FEEDBACK_TEMPLATE coefficient target_min
          target_max direction reason_info.1 reason_info.2)
        retry_count := retry_count }

end DifficultyAgent

/-! ## Position pipeline (graph/exam_paper_generator.py, `_process_single_question`)

The four content agents are LLM-backed collaborators; they enter the
embedding as oracle functions indexed by the current value of the local
`retry_count` (which equals the number of loop iterations already
performed, since every non-terminating iteration increments it by exactly
one).  Calls that can raise are modelled with `Except`.  The progress
callback is modelled as a function that may raise (`Except`); `_emit`
swallows its exceptions. -/

/-- Value of one progress-event payload field. -/
inductive PVal where
  | nat (n : Nat)
  | str (s : String)
  | bool (b : Bool)
  | rat (q : ℚ)
  | strList (l : List String)
deriving Repr, DecidableEq

/-- A progress-event payload (the `data` dict). -/
abbrev Payload := List (String × PVal)

/-- An externally supplied progress callback; a faulty subscriber raises. -/
abbrev ProgressCallback := String → Payload → Except String Unit

/-- Observable side-effect state threaded through one position pipeline:
the sequence of progress emissions attempted, the messages logged for
callback exceptions (`_emit`'s `except` branch), the number of retry-loop
body entries, and — for auditing the shared retry budget — the pair
(local `retry_count`, `task.retry_count`) at each `DifficultyAgent.run`
call. -/
structure PipeState where
  events : List (String × Payload)
  callback_errors : List String
  iters : Nat
  diff_calls : List (Nat × Nat)
deriving Repr, DecidableEq

/-- The initial pipeline state. -/
def PipeState.init : PipeState := ⟨[], [], 0, []⟩

/-- `ExamPaperGenerator._emit` (exam_paper_generator.py:73-77): invoke the
progress callback, catching and logging any exception it raises. -/
def emit (cb : ProgressCallback) (st : PipeState) (event : String)
    (data : Payload) : PipeState :=
  { st with
    events := st.events ++ [(event, data)]
    callback_errors := st.callback_errors ++
      (match cb event data with
       | .ok _ => []
       | .error e => [s!"进度回调异常: {e}"]) }

/-- Oracles for the content-agent collaborators of one position pipeline,
indexed by the current `retry_count`.  `quota_exhausted` is the value
`quota_exhausted.is_set()` reads at the top of iteration `i`;
`question_agent` may raise (caught by the pipeline), `quality_check` and
`solve_grades` may raise (propagated to the job-level gather). -/
structure PipelineEnv where
  quota_exhausted : Nat → Bool
  question_agent : Nat → Except String GeneratedQuestion
  quality_check : Nat → GeneratedQuestion → Except String QualityCheckResult
  solve_grades : Nat → GeneratedQuestion → Except String (List GradeResult)

/-- Return value of `_process_single_question`:
(approved question or `none`, its difficulty result or `none`, warnings). -/
abbrev PipeResult := Option GeneratedQuestion × Option DifficultyResult × List String

/-- The warning recorded when a pipeline observes the armed quota flag
(exam_paper_generator.py:98). -/
def quotaSkipMsg (pos : Nat) : String := s!"第{pos}题：Token 配额耗尽，跳过"

/-- The warning recorded when the retry budget is exhausted with no viable
candidate (exam_paper_generator.py:243-245). -/
def retrySkipMsg (pos mr : Nat) : String := s!"第{pos}题超过最大重试次数 {mr}，已跳过"

/-- The warning recorded on a forced difficulty downgrade
(exam_paper_generator.py:214-217). -/
def downgradeMsg (pos : Nat) (cstr : String) : String :=
  s!"第{pos}题难度系数 {cstr} 超出目标区间（已降级放行）"

/-- One entry of the `while retry_count <= max_retry` body of
`_process_single_question` (exam_paper_generator.py:95-240).  `inl` is a
return from inside the loop (or an uncaught agent exception); `inr` is a
`continue` with the updated task and the incremented retry counter. -/
def stepIter (env : PipelineEnv) (cb : ProgressCallback)
    (solve_count max_retry : Nat) (task : QuestionTask) (retry_count : Nat)
    (warnings : List String) (st : PipeState) :
    ((Except String PipeResult) × PipeState) ⊕ (QuestionTask × PipeState) :=
  let pos := task.position_index
  if env.quota_exhausted retry_count then
    .inl (.ok (none, none, warnings ++ [quotaSkipMsg pos]), st)
  else
    let st := emit cb st "question_start"
      [("position_index", .nat pos), ("question_type", .str task.question_type),
       ("knowledge_point", .str task.knowledge_point),
       ("retry_count", .nat retry_count)]
    match env.question_agent retry_count with
    | .error e =>
      let task := { task with
        retry_feedback := some s!"生成失败，请重新出题: {e}"
        retry_count := task.retry_count + 1 }
      let st := emit cb st "question_error"
        [("position_index", .nat pos), ("error", .str e)]
      .inr (task, st)
    | .ok question =>
      let st := emit cb st "quality_check" [("position_index", .nat pos)]
      match env.quality_check retry_count question with
      | .error e => .inl (.error e, st)
      | .ok qc_result =>
        if qc_result.passed = false ∧ retry_count < max_retry then
          let reasons := String.intercalate "; " qc_result.rejection_reasons
          let task := { task with
            retry_feedback := some s!"质检失败：{reasons}"
            retry_count := task.retry_count + 1 }
          let st := emit cb st "quality_check_failed"
            [("position_index", .nat pos),
             ("reasons", .strList qc_result.rejection_reasons),
             ("retry_count", .nat (retry_count + 1))]
          .inr (task, st)
        else
          let st :=
            if qc_result.passed then st
            else
              emit cb st "quality_check_failed"
                [("position_index", .nat pos),
                 ("reasons", .strList qc_result.rejection_reasons),
                 ("retry_count", .nat retry_count), ("force_pass", .bool true)]
          let st := emit cb st "solving"
            [("position_index", .nat pos), ("solve_count", .nat solve_count)]
          match env.solve_grades retry_count question with
          | .error e => .inl (.error e, st)
          | .ok grade_results =>
            let diff_result := DifficultyAgent.run question grade_results
              retry_count max_retry
            let st := { st with
              diff_calls := st.diff_calls ++ [(retry_count, task.retry_count)] }
            let st := emit cb st "difficulty_result"
              [("position_index", .nat pos),
               ("coefficient", .rat diff_result.difficulty_coefficient),
               ("decision", .str diff_result.decision),
               ("pass_count", .nat diff_result.pass_count),
               ("total_attempts", .nat diff_result.total_attempts)]
            if diff_result.decision = "approve" then
              let cstr := toString (pyRound diff_result.difficulty_coefficient 2)
              let warnings :=
                if diff_result.difficulty_warning then
                  warnings ++ [downgradeMsg pos cstr]
                else warnings
              let st := emit cb st "question_approved"
                [("position_index", .nat pos),
                 ("difficulty_coefficient", .rat diff_result.difficulty_coefficient),
                 ("difficulty_warning", .bool diff_result.difficulty_warning)]
              .inl (.ok (some question, some diff_result, warnings), st)
            else
              let task := { task with
                retry_feedback := some ((diff_result.feedback).getD "难度不达标，请重新出题")
                retry_count := task.retry_count + 1 }
              let st := emit cb st "difficulty_retry"
                [("position_index", .nat pos),
                 ("retry_count", .nat (retry_count + 1))]
              .inr (task, st)

/-- The retry loop of `_process_single_question`.  The Python loop runs
while `retry_count ≤ max_retry` and every `continue` increments
`retry_count` by one, so `fuel = max_retry + 1 - retry_count` counts the
remaining admissible iterations; `fuel = 0` is the loop exit
(exam_paper_generator.py:242-247). -/
def processGo (env : PipelineEnv) (cb : ProgressCallback)
    (solve_count max_retry : Nat) (task : QuestionTask) (retry_count : Nat)
    (warnings : List String) (st : PipeState) :
    Nat → (Except String PipeResult) × PipeState
  | 0 =>
    let pos := task.position_index
    let warnings := warnings ++ [retrySkipMsg pos max_retry]
    let st := emit cb st "question_skipped" [("position_index", .nat pos)]
    (.ok (none, none, warnings), st)
  | fuel + 1 =>
    let st := { st with iters := st.iters + 1 }
    match stepIter env cb solve_count max_retry task retry_count warnings st with
    | .inl r => r
    | .inr (task2, st2) =>
      processGo env cb solve_count max_retry task2 (retry_count + 1) warnings st2 fuel

/-- `_process_single_question` (exam_paper_generator.py:79-247): the whole
per-position control loop, started with `retry_count = 0`. -/
def processSingleQuestion (env : PipelineEnv) (cb : ProgressCallback)
    (task : QuestionTask) (solve_count max_retry : Nat) :
    (Except String PipeResult) × PipeState :=
  processGo env cb solve_count max_retry task 0 [] PipeState.init (max_retry + 1)

/-! ## Checkpoint serialization and the resume merge
(exam_paper_generator.py, `generate`, lines 305-401) -/

/-- The JSON object serialized per completed question
(exam_paper_generator.py:334-348). -/
structure SerializedQuestion where
  qtype : String
  content : String
  options : Option (List (String × String))
  answer : String
  explanation : String
  scoring_points : Option String
deriving Repr, DecidableEq

/-- One value of the durable `completed_questions` map.  An entry written by
the orchestrator is well-formed JSON (`valid`); `malformed` models a stored
string that `json.loads`/field extraction rejects (the `except` branch at
exam_paper_generator.py:390-391). -/
inductive CheckpointEntry where
  | valid (s : SerializedQuestion)
  | malformed (raw : String)
deriving Repr, DecidableEq

/-- Serialization of an approved question into the checkpoint map
(exam_paper_generator.py:334-348). -/
def serializeQuestion (q : GeneratedQuestion) : SerializedQuestion :=
  { qtype := q.question_type
    content := q.question_text
    options := q.options
    answer := q.correct_answer
    explanation := q.explanation
    scoring_points := q.scoring_points }

/-- Restoration of a checkpointed question on resume
(exam_paper_generator.py:367-389): content fields are taken from the stored
JSON, identity/metadata fields are re-synthesized. -/
def restoreQuestion (pos : Nat) (s : SerializedQuestion) : GeneratedQuestion :=
  { task_id := s!"resume_{pos}"
    question_type := s.qtype
    question_text := s.content
    options := s.options
    correct_answer := s.answer
    explanation := s.explanation
    scoring_points := s.scoring_points
    knowledge_point := ""
    target_difficulty_level := "" }

/-- Python dict assignment on an insertion-ordered association list:
overwrite in place if the key exists, append otherwise. -/
def dictInsert {α : Type} (l : List (Nat × α)) (k : Nat) (v : α) :
    List (Nat × α) :=
  if (l.lookup k).isSome then
    l.map (fun p => if p.1 = k then (k, v) else p)
  else l ++ [(k, v)]

/-- The `new_q_by_pos` dict (exam_paper_generator.py:354-360): position of
each task whose pipeline produced a question in this run. -/
def new_q_by_pos (pairs : List (QuestionTask × Except String PipeResult)) :
    List (Nat × GeneratedQuestion) :=
  pairs.filterMap (fun tr =>
    match tr.2 with
    | .ok (some q, _, _) => some (tr.1.position_index, q)
    | _ => none)

/-- First merge loop (exam_paper_generator.py:362-391): for every
checkpointed position, prefer a new result for the same index, otherwise
restore the stored entry; an entry that fails to parse is dropped with a
logged warning. -/
def merge_first_loop (existing : List (Nat × CheckpointEntry))
    (newq : List (Nat × GeneratedQuestion)) : List (Nat × GeneratedQuestion) :=
  existing.filterMap (fun pe =>
    match newq.lookup pe.1 with
    | some q => some (pe.1, q)
    | none =>
      match pe.2 with
      | .valid s => some (pe.1, restoreQuestion pe.1 s)
      | .malformed _ => none)

/-- Second merge loop (exam_paper_generator.py:392-397): append the
questions of this run whose position is not yet in the merged dict. -/
def merge_second_loop :
    List (QuestionTask × Except String PipeResult) →
    List (Nat × GeneratedQuestion) → List (Nat × GeneratedQuestion)
  | [], merged => merged
  | (task, result) :: rest, merged =>
    let merged :=
      if (merged.lookup task.position_index).isSome then merged
      else
        match result with
        | .ok (some q, _, _) => merged ++ [(task.position_index, q)]
        | _ => merged
    merge_second_loop rest merged

/-- `sorted(merged.items())` (exam_paper_generator.py:398): sort the merged
entries by position index (keys are unique, so the tuple comparison never
reaches the second component). -/
def sortByPosition (l : List (Nat × GeneratedQuestion)) :
    List (Nat × GeneratedQuestion) :=
  l.mergeSort (fun a b => decide (a.1 ≤ b.1))

/-! ## Assembler (graph/exam_agents/assemble_agent.py) -/

/-- The computed content of `AssembleAgent.run` (assemble_agent.py:51-126):
the question list numbered by `enumerate(questions, 1)`, the downgrade
warning, and the mean difficulty coefficient. -/
structure AssembleOutputModel where
  numbered : List (Nat × GeneratedQuestion)
  warnings : List String
  avg_coefficient : ℚ
deriving Repr, DecidableEq

/-- The `{d.task_id: d for d in difficulty_results}` lookup
(assemble_agent.py:54); a later result for the same task id overwrites an
earlier one. -/
def diffLookup (diffs : List DifficultyResult) (tid : String) :
    Option DifficultyResult :=
  (diffs.reverse.map (fun d => (d.task_id, d))).lookup tid

/-- The body of `AssembleAgent.run` up to the result construction
(assemble_agent.py:51-121): the downgrade warning, the mean difficulty
coefficient, and the numbering `enumerate(questions, 1)` driving the
markdown sections.  The input question order is used as-is: the
orchestrator hands the questions over already in dispatch position
order. -/
def assembleComputed (questions : List GeneratedQuestion)
    (diffs : List DifficultyResult) : AssembleOutputModel :=
  let downgrade_positions := questions.enum.filterMap (fun iq =>
    match diffLookup diffs iq.2.task_id with
    | some d => if d.difficulty_warning then some (toString (iq.1 + 1)) else none
    | none => none)
  let warnings :=
    if downgrade_positions.isEmpty then ([] : List String)
    else
      ["⚠️ 以下题目难度系数未达目标（已降级放行）：第 "
        ++ String.intercalate ", " downgrade_positions ++ " 题"]
  let coefficients := questions.filterMap (fun q =>
    (diffLookup diffs q.task_id).map (fun d => d.difficulty_coefficient))
  let avg_coefficient :=
    if coefficients.isEmpty then 1/2
    else pyRound (coefficients.sum / (coefficients.length : ℚ)) 3
  { numbered := questions.enum.map (fun iq => (iq.1 + 1, iq.2))
    warnings := warnings
    avg_coefficient := avg_coefficient }

/-- The pydantic error raised by the result construction of
`AssembleAgent.run` (assemble_agent.py:122-126): the call passes
`markdown_content`, `title` and `warnings`, but `AssembleResult`
(schemas.py:173-176) declares `json_content : str` as a required field
with no default and has no `markdown_content` field, so the constructor
fails validation on every call, whatever the arguments. -/
def assembleValidationError : String :=
  "1 validation error for AssembleResult: json_content Field required"

/-- `AssembleAgent.run` (assemble_agent.py:51-126): the body computes
`assembleComputed` (pure, total, never raises), then the final
`return AssembleResult(markdown_content=..., title=..., warnings=...)`
raises the validation error above on every input — the function never
returns normally. -/
def assembleRun (_questions : List GeneratedQuestion)
    (_diffs : List DifficultyResult) : Except String AssembleOutputModel :=
  .error assembleValidationError

/-! ## `generate` (exam_paper_generator.py:249-428), after the gather -/

/-- The warning recorded when a position pipeline raised
(exam_paper_generator.py:321-325). -/
def exceptionSkipMsg (pos : Nat) (e : String) : String :=
  s!"第{pos}题处理异常，已跳过: {e}"

/-- The warnings collected from the gathered per-position results
(exam_paper_generator.py:320-328): a pipeline that raised contributes one
"处理异常，已跳过" line, the others contribute their own warning lists. -/
def collect_warnings (pairs : List (QuestionTask × Except String PipeResult)) :
    List String :=
  pairs.flatMap (fun tr =>
    match tr.2 with
    | .error e => [exceptionSkipMsg tr.1.position_index e]
    | .ok r => r.2.2)

/-- The `approved_questions` list built by the collection loop, in gather
(= dispatch) order (exam_paper_generator.py:329-330). -/
def collect_approved (pairs : List (QuestionTask × Except String PipeResult)) :
    List GeneratedQuestion :=
  pairs.filterMap (fun tr =>
    match tr.2 with
    | .ok (some q, _, _) => some q
    | _ => none)

/-- The `difficulty_results` list (exam_paper_generator.py:331-332): only
appended when the pipeline returned a question together with a difficulty
result. -/
def collect_diffs (pairs : List (QuestionTask × Except String PipeResult)) :
    List DifficultyResult :=
  pairs.filterMap (fun tr =>
    match tr.2 with
    | .ok (some _, some d, _) => some d
    | _ => none)

/-- The updated `completed_questions` checkpoint map
(exam_paper_generator.py:309, 333-348): starts from the restored map and
stores the serialization of every newly approved question under its
position. -/
def collect_completed (existing : List (Nat × CheckpointEntry))
    (pairs : List (QuestionTask × Except String PipeResult)) :
    List (Nat × CheckpointEntry) :=
  pairs.foldl (fun acc tr =>
    match tr.2 with
    | .ok (some q, _, _) =>
      dictInsert acc tr.1.position_index (.valid (serializeQuestion q))
    | _ => acc) existing

/-- Result of a successful `generate` run (exam_paper_generator.py:422-428),
restricted to the fields the claims are about. -/
structure GenerateOutput where
  approved : List GeneratedQuestion
  all_warnings : List String
  completed : List (Nat × CheckpointEntry)
  assembled : AssembleOutputModel
deriving Repr, DecidableEq

/-- The final `approved_questions` list of `generate`
(exam_paper_generator.py:329-330, 350-398): the collection-loop list when
there is no checkpoint, otherwise the checkpoint merge sorted by
position. -/
def generateApproved (existing : List (Nat × CheckpointEntry))
    (pairs : List (QuestionTask × Except String PipeResult)) :
    List GeneratedQuestion :=
  if existing.isEmpty then collect_approved pairs
  else
    (sortByPosition
      (merge_second_loop pairs
        (merge_first_loop existing (new_q_by_pos pairs)))).map Prod.snd

/-- The tail of `generate` (exam_paper_generator.py:305-428): collect the
gathered results, merge with the checkpoint when resuming, raise the hard
failure when nothing was approved, then call the assembler at line 411
with no surrounding try/except — its validation error propagates out of
`generate`.  `tasks` is the dispatch output and `results` the gather
output aligned with it (asyncio.gather returns results in input order
regardless of completion order). -/
def generateModel (existing : List (Nat × CheckpointEntry))
    (tasks : List QuestionTask) (results : List (Except String PipeResult)) :
    Except String GenerateOutput :=
  let pairs := tasks.zip results
  let all_warnings := collect_warnings pairs
  let completed := collect_completed existing pairs
  let approved := generateApproved existing pairs
  if approved.isEmpty then .error "所有题目均未通过审核，组卷失败"
  else
    match assembleRun approved (collect_diffs pairs) with
    | .error e => .error e
    | .ok asm =>
      .ok { approved := approved
            all_warnings := all_warnings ++ asm.warnings
            completed := completed
            assembled := asm }

/-! ## Task builder (graph/exam_agents/dispatch_agent.py) -/

/-- The per-task target difficulty bucket (dispatch_agent.py:207-217):
the rank of the task within its type is mapped linearly onto the
easy/medium/hard ratio. -/
def target_difficulty_for (dist : DifficultyDistribution)
    (q_idx count : Nat) : String :=
  let ratio : ℚ := (q_idx : ℚ) / ((max (count - 1) 1 : Nat) : ℚ)
  if ratio < dist.easy then "easy"
  else if ratio < dist.easy + dist.medium then "medium"
  else "hard"

/-- The tasks emitted for one `(question_type, count)` entry of the
distribution, with the global position counter starting after `start_pos`
(dispatch_agent.py:152-230).  Positions already in the checkpoint are
skipped entirely.  `kp` is the LLM knowledge-point oracle
(`_infer_knowledge_point`); the random `task_id` is modelled
deterministically from the position. -/
def dispatch_type (qtype : String) (count : Nat)
    (dist : DifficultyDistribution) (already_done : List Nat)
    (kp : Nat → String) (start_pos : Nat) : List QuestionTask :=
  (List.range count).filterMap (fun q_idx =>
    let position_index := start_pos + q_idx + 1
    if already_done.contains position_index then none
    else
      some { task_id := s!"task-{position_index}"
             question_type := qtype
             position_index := position_index
             position_label := s!"第{position_index}题"
             target_difficulty_level := target_difficulty_for dist q_idx count
             knowledge_point := kp position_index
             retry_feedback := none
             retry_count := 0 })

/-- The outer loop over the distribution (dispatch_agent.py:152-153),
threading the global position counter. -/
def dispatch_go (dist : DifficultyDistribution) (already_done : List Nat)
    (kp : Nat → String) : List QuestionTypeConfig → Nat → List QuestionTask
  | [], _ => []
  | tc :: rest, pos =>
    dispatch_type tc.question_type tc.count dist already_done kp pos
      ++ dispatch_go dist already_done kp rest (pos + tc.count)

/-- `DispatchAgent.dispatch` (dispatch_agent.py:139-237). -/
def dispatch (requirement : PaperRequirement) (already_done : List Nat)
    (kp : Nat → String) : List QuestionTask :=
  dispatch_go requirement.difficulty_distribution already_done kp
    requirement.question_distribution 0

/-! ## `_run_async` (services/exam_paper_task.py:110-272), up to the
`generate` call -/

/-- The durable job fields `_run_async` reads. -/
structure JobModel where
  status : String
  total_questions : Nat
  completed_questions : List (Nat × CheckpointEntry)
deriving Repr

/-- What `_run_async` has prepared when it invokes `generate`
(exam_paper_task.py:138-210). -/
structure RunSetup where
  already_done : List Nat
  remaining_questions : Int
  estimated : Int
  quota_exhausted_armed : Bool
deriving Repr, DecidableEq

/-- The admission phase of `_run_async` (exam_paper_task.py:133-210):
reject unless the status is pending/resuming, restore the checkpoint keys,
estimate the token cost of the *remaining* positions — and create the
`quota_exhausted` event.  The event is created unset
(exam_paper_task.py:164) and no statement of `_run_async` ever calls
`.set()` on it, nor is `check_quota` called anywhere in this function (the
`_check_quota_mid_job` closure at lines 166-168 only reads the flag and is
itself never invoked), so the flag handed to `generate` is always `false`. -/
def runAsyncSetup (job : JobModel) (avg solve_count : Int) : Option RunSetup :=
  if job.status = "pending" ∨ job.status = "resuming" then
    let already_done := (job.completed_questions.map Prod.fst).dedup
    let remaining : Int := (job.total_questions : Int) - already_done.length
    some { already_done := already_done
           remaining_questions := remaining
           estimated := estimate_tokens remaining solve_count avg
           quota_exhausted_armed := false }
  else none

/-- The final job status written by `_run_async` (exam_paper_task.py:224-269):
`completed` when `generate` returned, `failed` (with the captured message)
when it raised. -/
def runAsyncFinalStatus (gen : Except String GenerateOutput) : String :=
  match gen with
  | .ok _ => "completed"
  | .error _ => "failed"

/-! ## Retrieval layer (rag/exam_retriever.py) -/

/-- Row of the `ExamQuestion` table, restricted to the columns the
three-tier lookup touches.  `has_embedding` models
`ExamQuestion.embedding IS NOT NULL`. -/
structure ExamQuestionRow where
  id : Nat
  subject : String
  question_type : String
  position_index : Nat
  region : String
  year : Int
  has_embedding : Bool
deriving Repr, DecidableEq

/-- `ExamRetriever._layer1_exact` (exam_retriever.py:72-92) over the table
contents `db`: exact match on subject+type+position+region, newest year
first, limited. -/
def layer1_exact (db : List ExamQuestionRow) (subject question_type : String)
    (position_index : Nat) (region : String) (limit : Nat) :
    List ExamQuestionRow :=
  ((db.filter (fun q =>
      q.subject == subject && q.question_type == question_type
        && q.position_index == position_index && q.region == region)).mergeSort
    (fun a b => decide (b.year ≤ a.year))).take limit

/-- `ExamRetriever._layer2_cross_region` (exam_retriever.py:94-117): relax
the region, exclude ids already returned (an empty exclusion set adds no
condition, which filters identically). -/
def layer2_cross_region (db : List ExamQuestionRow)
    (subject question_type : String) (position_index : Nat) (limit : Nat)
    (excluded_ids : List Nat) : List ExamQuestionRow :=
  ((db.filter (fun q =>
      q.subject == subject && q.question_type == question_type
        && q.position_index == position_index
        && !(excluded_ids.contains q.id))).mergeSort
    (fun a b => decide (b.year ≤ a.year))).take limit

/-- `ExamRetriever._layer3_semantic` (exam_retriever.py:119-151): semantic
nearest-neighbour search scoped to subject+type, excluding prior ids.
`embed = none` models a raised embedding-backend failure: the surrounding
`try/except` returns `[]` instead of propagating.  `embed = some dist`
gives the cosine distance of each row to the query embedding. -/
def layer3_semantic (db : List ExamQuestionRow)
    (subject question_type : String) (limit : Nat) (excluded_ids : List Nat)
    (embed : Option (ExamQuestionRow → ℚ)) : List ExamQuestionRow :=
  match embed with
  | none => []
  | some dist =>
    ((db.filter (fun q =>
        q.subject == subject && q.question_type == question_type
          && q.has_embedding && !(excluded_ids.contains q.id))).mergeSort
      (fun a b => decide (dist a ≤ dist b))).take limit

/-- `ExamRetriever.get_same_position_examples` (exam_retriever.py:25-70):
the three-tier strategy; each later tier is only consulted for the
shortfall, excluding ids already returned. -/
def get_same_position_examples (db : List ExamQuestionRow)
    (subject question_type : String) (position_index : Nat)
    (target_region : String) (top_k : Nat)
    (embed : Option (ExamQuestionRow → ℚ)) : List ExamQuestionRow :=
  let results := layer1_exact db subject question_type position_index
    target_region top_k
  if results.length ≥ top_k then results.take top_k
  else
    let existing_ids := results.map (fun r => r.id)
    let layer2 := layer2_cross_region db subject question_type position_index
      (top_k - results.length) existing_ids
    let results := results ++ layer2
    if results.length ≥ top_k then results.take top_k
    else
      let existing_ids2 := results.map (fun r => r.id)
      let layer3 := layer3_semantic db subject question_type
        (top_k - results.length) existing_ids2 embed
      (results ++ layer3).take top_k

/-! ## Auxiliary notions for stating the pipeline claims -/

/-- The terminal shapes of one position pipeline: approved (question and
difficulty result both present), skipped (both absent), or an uncaught
agent exception (turned into a skip with a warning by the job-level
collection loop). -/
def TerminalShape (r : Except String PipeResult) : Prop :=
  (∃ q d w, r = .ok (some q, some d, w))
    ∨ (∃ w, r = .ok (none, none, w))
    ∨ (∃ e, r = .error e)

/-- The pipeline-state components that are independent of the progress
callback: emitted events, iteration count, and difficulty-call audit log
(everything except the logged callback errors). -/
abbrev StateCore := List (String × Payload) × Nat × List (Nat × Nat)

/-- Projection of a pipeline state to its callback-independent core. -/
def PipeState.core (st : PipeState) : StateCore :=
  (st.events, st.iters, st.diff_calls)

/-- Projection of one loop-step outcome to its callback-independent core. -/
def stepOutCore :
    ((Except String PipeResult) × PipeState) ⊕ (QuestionTask × PipeState) →
    ((Except String PipeResult) × StateCore) ⊕ (QuestionTask × StateCore)
  | .inl (r, st) => .inl (r, st.core)
  | .inr (t, st) => .inr (t, st.core)

/-- The position of a gathered pair whose pipeline produced a question
(the key set of `new_q_by_pos`). -/
def approvedPosOf (tr : QuestionTask × Except String PipeResult) : Option Nat :=
  match tr.2 with
  | .ok (some _, _, _) => some tr.1.position_index
  | _ => none

/-- Whether a gathered pair's pipeline produced a question. -/
def isApprovedPair (tr : QuestionTask × Except String PipeResult) : Bool :=
  match tr.2 with
  | .ok (some _, _, _) => true
  | _ => false

/-- The total number of positions of a question distribution
(`sum(c.count for c in question_distribution)`). -/
def total_count (ds : List QuestionTypeConfig) : Nat :=
  (ds.map (fun c => c.count)).sum

/-! ## Concrete fixtures used by witnesses and counterexamples -/

/-- A progress callback that never raises. -/
def dummyCallback : ProgressCallback := fun _ _ => .ok ()

/-- A progress callback that raises on every event. -/
def throwingCallback : ProgressCallback := fun _ _ => .error "subscriber down"

/-- A concrete position task. -/
def mkTask (pos : Nat) (level : String) : QuestionTask :=
  { task_id := s!"task-{pos}"
    question_type := "single_choice"
    position_index := pos
    position_label := s!"第{pos}题"
    target_difficulty_level := level
    knowledge_point := "细胞呼吸"
    retry_feedback := none
    retry_count := 0 }

def taskPos1 : QuestionTask := mkTask 1 "medium"

def taskPos2 : QuestionTask := mkTask 2 "medium"

/-- A concrete generated question targeting the medium bucket. -/
def mediumQuestionExample : GeneratedQuestion :=
  { task_id := "task-1"
    question_type := "single_choice"
    question_text := "下列关于细胞呼吸的说法正确的是？"
    options := some [("A", "甲"), ("B", "乙"), ("C", "丙"), ("D", "丁")]
    correct_answer := "A"
    explanation := "略"
    scoring_points := none
    knowledge_point := "细胞呼吸"
    target_difficulty_level := "medium" }

/-- A concrete generated question targeting the hard bucket. -/
def hardQuestionExample : GeneratedQuestion :=
  { mediumQuestionExample with task_id := "task-2", target_difficulty_level := "hard" }

/-- Five graded attempts with two correct: objective coefficient 0.4. -/
def gradesTwoOfFive : List GradeResult :=
  [⟨some true, none⟩, ⟨some true, none⟩, ⟨some false, none⟩,
   ⟨some false, none⟩, ⟨some false, none⟩]

/-- One graded attempt, incorrect: objective coefficient 0. -/
def oneWrongGrade : List GradeResult := [⟨some false, none⟩]

/-- A pipeline environment whose quota-exhausted flag is set from the
start (the agent oracles are never reached). -/
def envQuotaSet : PipelineEnv :=
  { quota_exhausted := fun _ => true
    question_agent := fun _ => .error "backend offline"
    quality_check := fun _ _ => .error "backend offline"
    solve_grades := fun _ _ => .error "backend offline" }

/-- A pipeline environment whose quality check rejects the first attempt
and passes the second; the solving stage reports no grade outcomes, which
makes the calibrator approve immediately (its empty-grades default). -/
def qcFailOnceEnv : PipelineEnv :=
  { quota_exhausted := fun _ => false
    question_agent := fun _ => .ok mediumQuestionExample
    quality_check := fun i q =>
      .ok { task_id := q.task_id
            passed := decide (i ≠ 0)
            rejection_reasons := if i = 0 then ["表述含混"] else [] }
    solve_grades := fun _ _ => .ok [] }

/-- A pipeline environment whose quality check rejects every attempt. -/
def qcAlwaysFailEnv : PipelineEnv :=
  { qcFailOnceEnv with
    quality_check := fun _ q =>
      .ok { task_id := q.task_id, passed := false, rejection_reasons := ["表述含混"] } }

/-- An enabled grant whose monthly cap is already fully consumed
(`cap - used = 0`). -/
def permZeroCap : TeacherExamPermission := ⟨true, some 0, 0⟩

/-- A freshly submitted three-question job with no checkpoint. -/
def jobPending3 : JobModel :=
  { status := "pending", total_questions := 3, completed_questions := [] }

/-- A concrete approved difficulty result for `taskPos1`. -/
def approvedDiffExample : DifficultyResult :=
  { task_id := "task-1"
    difficulty_coefficient := 2/5
    pass_count := 2
    total_attempts := 5
    decision := "approve"
    feedback := none
    retry_count := 0
    difficulty_warning := false }

/-- A three-single-choice-question requirement (the spec's concrete
scenario shape). -/
def reqThree : PaperRequirement :=
  { subject := "生物"
    course_id := 1
    target_region := "全国甲卷"
    total_questions := 3
    question_distribution := [⟨"single_choice", 3, 6⟩]
    target_difficulty := "medium"
    difficulty_distribution := ⟨3/10, 5/10, 2/10⟩
    use_hotspot := false }

/-- Gather output where position 1 was approved and position 2 was
skipped on retry exhaustion. -/
def exResultsOneSkip : List (Except String PipeResult) :=
  [.ok (some mediumQuestionExample, some approvedDiffExample, []),
   .ok (none, none, [retrySkipMsg 2 3])]

end CogniLoop

open CogniLoop

/-! # Theorems

Helper lemmas come first, then for each claim its theorem (and, where the
statement carries hypotheses, a closed witness instantiating it). -/

/-- Iterated nonnegative debits keep the grant row, never decrease the
used counter, and never change the cap. -/
theorem consume_tokens_seq_mono (amounts : List Int) :
    ∀ (p : TeacherExamPermission), (∀ a ∈ amounts, 0 ≤ a) →
      ∃ p2, consume_tokens_seq (some p) amounts = some p2 ∧
        p.token_used ≤ p2.token_used ∧ p2.monthly_quota = p.monthly_quota := by
  induction amounts with
  | nil => intro p _; exact ⟨p, rfl, le_refl _, rfl⟩
  | cons a rest ih =>
    intro p hpos
    obtain ⟨p2, h1, h2, h3⟩ :=
      ih { p with token_used := p.token_used + a }
        (fun x hx => hpos x (List.mem_cons_of_mem _ hx))
    refine ⟨p2, h1, ?_, h3⟩
    have ha : 0 ≤ a := hpos a (List.mem_cons_self _ _)
    calc p.token_used ≤ p.token_used + a := by omega
      _ ≤ p2.token_used := h2

/-- C8: `check_quota` fails with no enabled grant, succeeds unconditionally
with no cap, and with a cap succeeds iff `cap − used ≥ estimated`; once
`used ≥ cap` it fails for every positive estimate; `consume_tokens` only
ever increases the used counter, so after a cap-exceeding debit every later
sequence of nonnegative debits still leaves `check_quota` failing for every
positive estimate. -/
theorem check_quota_spec :
    (∀ est : Int, (check_quota none est).1 = false)
    ∧ (∀ (p : TeacherExamPermission) (est : Int), p.is_enabled = false →
        (check_quota (some p) est).1 = false)
    ∧ (∀ (p : TeacherExamPermission) (est : Int), p.is_enabled = true →
        p.monthly_quota = none → (check_quota (some p) est).1 = true)
    ∧ (∀ (p : TeacherExamPermission) (cap est : Int), p.is_enabled = true →
        p.monthly_quota = some cap →
        ((check_quota (some p) est).1 = true ↔ est ≤ cap - p.token_used))
    ∧ (∀ (p : TeacherExamPermission) (cap est : Int),
        p.monthly_quota = some cap → cap ≤ p.token_used → 0 < est →
        (check_quota (some p) est).1 = false)
    ∧ (∀ (p : TeacherExamPermission) (t : Int), 0 ≤ t →
        ∃ p2, consume_tokens (some p) t = some p2 ∧
          p.token_used ≤ p2.token_used ∧ p2.monthly_quota = p.monthly_quota)
    ∧ (∀ (p : TeacherExamPermission) (cap d : Int) (amounts : List Int),
        p.monthly_quota = some cap → cap ≤ p.token_used + d →
        (∀ a ∈ amounts, 0 ≤ a) →
        ∀ est : Int, 0 < est →
          ∀ p3, consume_tokens_seq (consume_tokens (some p) d) amounts = some p3 →
            (check_quota (some p3) est).1 = false) := by
  refine ⟨fun est => rfl, ?_, ?_, ?_, ?_, ?_, ?_⟩
  · intro p est hdis
    simp [check_quota, hdis]
  · intro p est hen hq
    simp [check_quota, hen, hq]
  · intro p cap est hen hq
    simp only [check_quota, hen, hq]
    constructor
    · intro h
      by_contra hlt
      simp only [not_le] at hlt
      rw [if_pos (show cap - p.token_used < est by omega)] at h
      simp at h
    · intro h
      rw [if_neg (show ¬ cap - p.token_used < est by omega)]
      simp
  · intro p cap est hq hle hpos
    rcases hen : p.is_enabled with _ | _
    · simp [check_quota, hen]
    · simp only [check_quota, hen, hq]
      rw [if_pos (show cap - p.token_used < est by omega)]
      simp
  · intro p t ht
    exact ⟨{ p with token_used := p.token_used + t }, rfl, by simp; omega, rfl⟩
  · intro p cap d amounts hq hcap hpos est hest p3 hseq
    have : consume_tokens (some p) d = some { p with token_used := p.token_used + d } := rfl
    rw [this] at hseq
    obtain ⟨p2, h1, h2, h3⟩ := consume_tokens_seq_mono amounts
      { p with token_used := p.token_used + d } hpos
    rw [h1] at hseq
    injection hseq with heq
    rw [heq] at h2 h3
    have h4 : p.token_used + d ≤ p3.token_used := h2
    rcases hen : p3.is_enabled with _ | _
    · simp [check_quota, hen]
    · simp only [check_quota, hen, h3, hq]
      rw [if_pos (show cap - p3.token_used < est by omega)]
      simp

/-- Witness for `check_quota_spec` at concrete inputs: a grant with cap 100
and 60 used admits an estimate of 40 and rejects one of 41; once the cap is
exceeded by a debit, a later check with estimate 1 fails. -/
theorem check_quota_spec_witness :
    (check_quota (some ⟨true, some 100, 60⟩) 40).1 = true
    ∧ (check_quota (some ⟨true, some 100, 60⟩) 41).1 = false
    ∧ (∀ p3, consume_tokens_seq (consume_tokens (some ⟨true, some 100, 60⟩) 50) [5] = some p3 →
        (check_quota (some p3) 1).1 = false) := by
  refine ⟨?_, ?_, ?_⟩
  · exact (check_quota_spec.2.2.2.1 ⟨true, some 100, 60⟩ 100 40 rfl rfl).mpr (by norm_num)
  · rw [Bool.eq_false_iff]
    intro h
    have := (check_quota_spec.2.2.2.1 ⟨true, some 100, 60⟩ 100 41 rfl rfl).mp h
    norm_num at this
  · intro p3 h
    exact check_quota_spec.2.2.2.2.2.2 ⟨true, some 100, 60⟩ 100 50 [5] rfl
      (by norm_num) (by norm_num) 1 (by norm_num) p3 h

/-- Every target range of the calibrator is a genuine interval
(lower bound at most upper bound). -/
theorem difficulty_target_ranges_le (level : String) :
    (DIFFICULTY_TARGET_RANGES level).1 ≤ (DIFFICULTY_TARGET_RANGES level).2 := by
  unfold DIFFICULTY_TARGET_RANGES
  split
  · norm_num
  · split
    · norm_num
    · split <;> norm_num

/-- C5 (amended): the calibrator maps easy to [0.65,1.0], medium to
[0.40,0.75] and hard to [0.10,0.50] (the code's lower hard bound is 0.10,
not the 0.0 the spec words say); given at least one grade outcome it
approves iff the coefficient lies in the target interval or
`retry_count ≥ max_retry`, sets the forced-downgrade flag exactly on an
out-of-range approval at budget exhaustion, and on a retry emits feedback
naming the direction of the miss. -/
theorem difficulty_calibrator_spec (question : GeneratedQuestion)
    (grade_results : List GradeResult) (retry_count max_retry : Nat)
    (hne : grade_results ≠ []) :
    (DIFFICULTY_TARGET_RANGES "easy" = (65/100, 1)
      ∧ DIFFICULTY_TARGET_RANGES "medium" = (40/100, 75/100)
      ∧ DIFFICULTY_TARGET_RANGES "hard" = (10/100, 50/100))
    ∧ ((DifficultyAgent.run question grade_results retry_count max_retry).decision
          = "approve"
        ↔ (((DIFFICULTY_TARGET_RANGES question.target_difficulty_level).1
              ≤ difficulty_coefficient_of question.question_type grade_results
            ∧ difficulty_coefficient_of question.question_type grade_results
              ≤ (DIFFICULTY_TARGET_RANGES question.target_difficulty_level).2)
          ∨ retry_count ≥ max_retry))
    ∧ ((DifficultyAgent.run question grade_results retry_count max_retry).decision
          = "retry"
        ↔ ¬ ((((DIFFICULTY_TARGET_RANGES question.target_difficulty_level).1
              ≤ difficulty_coefficient_of question.question_type grade_results
            ∧ difficulty_coefficient_of question.question_type grade_results
              ≤ (DIFFICULTY_TARGET_RANGES question.target_difficulty_level).2)
          ∨ retry_count ≥ max_retry)))
    ∧ ((DifficultyAgent.run question grade_results retry_count max_retry).difficulty_warning
          = true
        ↔ (¬ ((DIFFICULTY_TARGET_RANGES question.target_difficulty_level).1
              ≤ difficulty_coefficient_of question.question_type grade_results
            ∧ difficulty_coefficient_of question.question_type grade_results
              ≤ (DIFFICULTY_TARGET_RANGES question.target_difficulty_level).2)
          ∧ retry_count ≥ max_retry))
    ∧ ((DifficultyAgent.run question grade_results retry_count max_retry).decision
          = "retry" →
        ((DIFFICULTY_TARGET_RANGES question.target_difficulty_level).2
            < difficulty_coefficient_of question.question_type grade_results →
          ∃ pre post,
            (DifficultyAgent.run question grade_results retry_count max_retry).feedback
              = some (pre ++ "偏简单" ++ post))
        ∧ (difficulty_coefficient_of question.question_type grade_results
            < (DIFFICULTY_TARGET_RANGES question.target_difficulty_level).1 →
          ∃ pre post,
            (DifficultyAgent.run question grade_results retry_count max_retry).feedback
              = some (pre ++ "偏困难" ++ post))) := by
  have h0 : grade_results.isEmpty = false := by
    simpa [List.isEmpty_iff] using hne
  have hlohi := difficulty_target_ranges_le question.target_difficulty_level
  refine ⟨⟨rfl, rfl, rfl⟩, ?_⟩
  rcases hin : decide
      ((DIFFICULTY_TARGET_RANGES question.target_difficulty_level).1
          ≤ difficulty_coefficient_of question.question_type grade_results
        ∧ difficulty_coefficient_of question.question_type grade_results
          ≤ (DIFFICULTY_TARGET_RANGES question.target_difficulty_level).2)
    with _ | _
  all_goals rcases hrc : decide (retry_count ≥ max_retry) with _ | _
  -- case 1: out of range, budget remains → retry with direction feedback
  · have hrun : DifficultyAgent.run question grade_results retry_count max_retry =
        { task_id := question.task_id
          difficulty_coefficient :=
            pyRound (difficulty_coefficient_of question.question_type grade_results) 4
          pass_count := difficulty_pass_count question.question_type grade_results
          total_attempts := grade_results.length
          decision := "retry"
          feedback := some (DIFFICULTY_FEEDBACK_TEMPLATE
            (difficulty_coefficient_of question.question_type grade_results)
            (DIFFICULTY_TARGET_RANGES question.target_difficulty_level).1
            (DIFFICULTY_TARGET_RANGES question.target_difficulty_level).2
            (if difficulty_coefficient_of question.question_type grade_results
                > (DIFFICULTY_TARGET_RANGES question.target_difficulty_level).2
              then "偏简单" else "偏困难")
            (DIFFICULTY_REASONS
              (if difficulty_coefficient_of question.question_type grade_results
                  > (DIFFICULTY_TARGET_RANGES question.target_difficulty_level).2
                then "too_easy" else "too_hard")).1
            (DIFFICULTY_REASONS
              (if difficulty_coefficient_of question.question_type grade_results
                  > (DIFFICULTY_TARGET_RANGES question.target_difficulty_level).2
                then "too_easy" else "too_hard")).2)
          retry_count := retry_count
          difficulty_warning := false } := by
      simp only [DifficultyAgent.run, h0, hin, hrc]
      simp
    refine ⟨?_, ?_, ?_, ?_⟩
    · rw [hrun]
      refine iff_of_false (by simp) ?_
      rintro (hP | hQ)
      · exact of_decide_eq_false hin hP
      · exact of_decide_eq_false hrc hQ
    · rw [hrun]
      refine iff_of_true rfl ?_
      rintro (hP | hQ)
      · exact of_decide_eq_false hin hP
      · exact of_decide_eq_false hrc hQ
    · rw [hrun]
      refine iff_of_false (by simp) ?_
      rintro ⟨_, hQ⟩
      exact of_decide_eq_false hrc hQ
    · intro _
      constructor
      · intro hgt
        rw [hrun]
        simp only [if_pos hgt, DIFFICULTY_FEEDBACK_TEMPLATE]
        exact ⟨_, _, rfl⟩
      · intro hlt
        have hngt : ¬ difficulty_coefficient_of question.question_type grade_results
            > (DIFFICULTY_TARGET_RANGES question.target_difficulty_level).2 :=
          not_lt.mpr (le_of_lt (lt_of_lt_of_le hlt hlohi))
        rw [hrun]
        simp only [if_neg hngt, DIFFICULTY_FEEDBACK_TEMPLATE]
        exact ⟨_, _, rfl⟩
  -- case 2: out of range, budget exhausted → forced approval with warning
  · have hrun : DifficultyAgent.run question grade_results retry_count max_retry =
        { task_id := question.task_id
          difficulty_coefficient :=
            pyRound (difficulty_coefficient_of question.question_type grade_results) 4
          pass_count := difficulty_pass_count question.question_type grade_results
          total_attempts := grade_results.length
          decision := "approve"
          feedback := none
          retry_count := retry_count
          difficulty_warning := true } := by
      simp only [DifficultyAgent.run, h0, hin, hrc]
      simp
    refine ⟨?_, ?_, ?_, ?_⟩
    · rw [hrun]
      exact iff_of_true rfl (Or.inr (of_decide_eq_true hrc))
    · rw [hrun]
      refine iff_of_false (by simp) ?_
      intro hn
      exact hn (Or.inr (of_decide_eq_true hrc))
    · rw [hrun]
      exact iff_of_true rfl ⟨of_decide_eq_false hin, of_decide_eq_true hrc⟩
    · intro hdec
      rw [hrun] at hdec
      simp at hdec
  -- cases 3 and 4: in range → clean approval, no warning
  all_goals
    have hrun : DifficultyAgent.run question grade_results retry_count max_retry =
        { task_id := question.task_id
          difficulty_coefficient :=
            pyRound (difficulty_coefficient_of question.question_type grade_results) 4
          pass_count := difficulty_pass_count question.question_type grade_results
          total_attempts := grade_results.length
          decision := "approve"
          feedback := none
          retry_count := retry_count
          difficulty_warning := false } := by
      simp only [DifficultyAgent.run, h0, hin, hrc]
      simp
  all_goals refine ⟨?_, ?_, ?_, ?_⟩
  all_goals first
  | (rw [hrun]
     exact iff_of_true rfl (Or.inl (of_decide_eq_true hin)))
  | (rw [hrun]
     refine iff_of_false (by simp) ?_
     intro hn
     exact hn (Or.inl (of_decide_eq_true hin)))
  | (rw [hrun]
     refine iff_of_false (by simp) ?_
     rintro ⟨hn, _⟩
     exact hn (of_decide_eq_true hin))
  | (intro hdec
     rw [hrun] at hdec
     simp at hdec)

/-- Witness for `difficulty_calibrator_spec`: a medium-bucket single-choice
question with two of five simulated solvers correct (coefficient 0.4, inside
[0.40, 0.75]) is approved on the first attempt. -/
theorem difficulty_calibrator_spec_witness :
    gradesTwoOfFive ≠ []
    ∧ (DifficultyAgent.run mediumQuestionExample gradesTwoOfFive 0 3).decision
        = "approve" := by
  have hq : mediumQuestionExample.question_type = "single_choice" := rfl
  have hl : mediumQuestionExample.target_difficulty_level = "medium" := rfl
  have hc : difficulty_coefficient_of mediumQuestionExample.question_type
      gradesTwoOfFive = 2/5 := by
    rw [hq]
    have hp : difficulty_pass_count "single_choice" gradesTwoOfFive = 2 := by decide
    have hlen : gradesTwoOfFive.length = 5 := by decide
    simp only [difficulty_coefficient_of, is_objective, hp, hlen]
    norm_num
  refine ⟨by decide, ?_⟩
  refine (difficulty_calibrator_spec mediumQuestionExample gradesTwoOfFive 0 3
    (by decide)).2.1.mpr (Or.inl ?_)
  rw [hc, hl, show DIFFICULTY_TARGET_RANGES "medium" = (40/100, 75/100) from rfl]
  constructor <;> norm_num

/-- C5 counterexample: the spec words the hard target interval as
[0.0, 0.50]; a hard-bucket question whose single simulated solver fails has
coefficient 0 — inside the spec-worded interval with retry budget remaining,
so the claim demands approval — yet the code's calibrator decides retry (its
hard interval starts at 0.10). -/
theorem difficulty_hard_range_counterexample :
    SPEC_WORDED_TARGET_RANGES "hard" = (0, 50/100)
    ∧ difficulty_coefficient_of "single_choice" oneWrongGrade = 0
    ∧ (SPEC_WORDED_TARGET_RANGES "hard").1
        ≤ difficulty_coefficient_of "single_choice" oneWrongGrade
    ∧ difficulty_coefficient_of "single_choice" oneWrongGrade
        ≤ (SPEC_WORDED_TARGET_RANGES "hard").2
    ∧ (0 : Nat) < 3
    ∧ (DifficultyAgent.run hardQuestionExample oneWrongGrade 0 3).decision
        = "retry" := by
  have hq : hardQuestionExample.question_type = "single_choice" := rfl
  have hl : hardQuestionExample.target_difficulty_level = "hard" := rfl
  have hc : difficulty_coefficient_of "single_choice" oneWrongGrade = 0 := by
    have hp : difficulty_pass_count "single_choice" oneWrongGrade = 0 := by decide
    have hlen : oneWrongGrade.length = 1 := by decide
    simp only [difficulty_coefficient_of, is_objective, hp, hlen]
    norm_num
  have h0 : oneWrongGrade.isEmpty = false := by decide
  refine ⟨rfl, hc, ?_, ?_, by norm_num, ?_⟩
  · rw [hc, show SPEC_WORDED_TARGET_RANGES "hard" = (0, 50/100) from rfl]
  · rw [hc, show SPEC_WORDED_TARGET_RANGES "hard" = (0, 50/100) from rfl]
    norm_num
  · have hcond : decide ((10/100 ≤ (0:ℚ)) ∧ ((0:ℚ) ≤ 50/100)) = false := by
      rw [decide_eq_false_iff_not]
      norm_num
    have hrc0 : decide ((0:Nat) ≥ 3) = false := by decide
    simp only [DifficultyAgent.run, h0, hq, hl, hc,
      show DIFFICULTY_TARGET_RANGES "hard" = (10/100, 50/100) from rfl]
    simp only [hcond, hrc0, Bool.or_self, Bool.false_eq_true, if_false]

/-- `_emit` leaves the iteration counter untouched. -/
theorem emit_iters (cb : ProgressCallback) (st : PipeState) (e : String)
    (d : Payload) : (emit cb st e d).iters = st.iters := rfl

/-- `_emit` leaves the difficulty-call audit log untouched. -/
theorem emit_diff_calls (cb : ProgressCallback) (st : PipeState) (e : String)
    (d : Payload) : (emit cb st e d).diff_calls = st.diff_calls := rfl

/-- `_emit` records the event regardless of the callback's behaviour. -/
theorem emit_events (cb : ProgressCallback) (st : PipeState) (e : String)
    (d : Payload) : (emit cb st e d).events = st.events ++ [(e, d)] := rfl

/-- Exhaustive description of one loop-body entry of the position
pipeline: it either returns — in a terminal shape, leaving the iteration
counter alone — or continues with the task's retry counter incremented by
exactly one; in both cases any new difficulty-call audit entry is the pair
of the current counters. -/
theorem stepIter_cases (env : PipelineEnv) (cb : ProgressCallback)
    (sc mr : Nat) (task : QuestionTask) (rc : Nat) (w : List String)
    (st : PipeState) :
    (∃ r st2, stepIter env cb sc mr task rc w st = .inl (r, st2)
      ∧ TerminalShape r ∧ st2.iters = st.iters
      ∧ (∀ p ∈ st2.diff_calls, p ∈ st.diff_calls ∨ p = (rc, task.retry_count)))
    ∨ (∃ t2 st2, stepIter env cb sc mr task rc w st = .inr (t2, st2)
      ∧ t2.retry_count = task.retry_count + 1 ∧ st2.iters = st.iters
      ∧ (∀ p ∈ st2.diff_calls, p ∈ st.diff_calls ∨ p = (rc, task.retry_count))) := by
  simp only [stepIter]
  rcases hq : env.quota_exhausted rc with _ | _
  case true =>
    exact Or.inl ⟨_, _, rfl, Or.inr (Or.inl ⟨_, rfl⟩), rfl, fun p hp => Or.inl hp⟩
  case false =>
    rcases hqa : env.question_agent rc with e | q
    · exact Or.inr ⟨_, _, rfl, rfl, rfl, fun p hp => Or.inl hp⟩
    · dsimp only
      rcases hqc : env.quality_check rc q with e | qc
      · exact Or.inl ⟨_, _, rfl, Or.inr (Or.inr ⟨_, rfl⟩), rfl, fun p hp => Or.inl hp⟩
      · dsimp only
        rcases hqp : qc.passed with _ | _
        case false =>
          by_cases hrcmr : rc < mr
          · rw [if_pos (show (false = false ∧ rc < mr) from ⟨rfl, hrcmr⟩)]
            exact Or.inr ⟨_, _, rfl, rfl, rfl, fun p hp => Or.inl hp⟩
          · rw [if_neg (show ¬ (false = false ∧ rc < mr) by simp [hrcmr])]
            rcases hsg : env.solve_grades rc q with e | gs
            · exact Or.inl ⟨_, _, rfl, Or.inr (Or.inr ⟨_, rfl⟩), rfl,
                fun p hp => Or.inl hp⟩
            · dsimp only
              by_cases hdec :
                  (DifficultyAgent.run q gs rc mr).decision = "approve"
              · rw [if_pos hdec]
                refine Or.inl ⟨_, _, rfl, Or.inl ⟨_, _, _, rfl⟩, rfl, ?_⟩
                intro p hp
                rcases List.mem_append.mp hp with h | h
                · exact Or.inl h
                · exact Or.inr (List.mem_singleton.mp h)
              · rw [if_neg hdec]
                refine Or.inr ⟨_, _, rfl, rfl, rfl, ?_⟩
                intro p hp
                rcases List.mem_append.mp hp with h | h
                · exact Or.inl h
                · exact Or.inr (List.mem_singleton.mp h)
        case true =>
          rcases hsg : env.solve_grades rc q with e | gs
          · exact Or.inl ⟨_, _, rfl, Or.inr (Or.inr ⟨_, rfl⟩), rfl,
              fun p hp => Or.inl hp⟩
          · dsimp only
            by_cases hdec :
                (DifficultyAgent.run q gs rc mr).decision = "approve"
            · rw [if_pos hdec]
              refine Or.inl ⟨_, _, rfl, Or.inl ⟨_, _, _, rfl⟩, rfl, ?_⟩
              intro p hp
              rcases List.mem_append.mp hp with h | h
              · exact Or.inl h
              · exact Or.inr (List.mem_singleton.mp h)
            · rw [if_neg hdec]
              refine Or.inr ⟨_, _, rfl, rfl, rfl, ?_⟩
              intro p hp
              rcases List.mem_append.mp hp with h | h
              · exact Or.inl h
              · exact Or.inr (List.mem_singleton.mp h)

/-- The retry loop always yields a terminal shape and enters its body at
most `fuel` times. -/
theorem processGo_iters_shape (env : PipelineEnv) (cb : ProgressCallback)
    (sc mr : Nat) :
    ∀ (fuel : Nat) (task : QuestionTask) (rc : Nat) (w : List String)
      (st : PipeState),
      (processGo env cb sc mr task rc w st fuel).2.iters ≤ st.iters + fuel
      ∧ TerminalShape (processGo env cb sc mr task rc w st fuel).1 := by
  intro fuel
  induction fuel with
  | zero =>
    intro task rc w st
    exact ⟨Nat.le_refl _, Or.inr (Or.inl ⟨_, rfl⟩)⟩
  | succ fuel ih =>
    intro task rc w st
    rcases stepIter_cases env cb sc mr task rc w { st with iters := st.iters + 1 }
      with ⟨r, st2, heq, hshape, hit, _⟩ | ⟨t2, st2, heq, _, hit, _⟩
    · have hout : processGo env cb sc mr task rc w st (fuel + 1) = (r, st2) := by
        simp only [processGo, heq]
      rw [hout]
      exact ⟨by simp only [hit]; omega, hshape⟩
    · have hout : processGo env cb sc mr task rc w st (fuel + 1)
          = processGo env cb sc mr t2 (rc + 1) w st2 fuel := by
        simp only [processGo, heq]
      rw [hout]
      obtain ⟨h1, h2⟩ := ih t2 (rc + 1) w st2
      refine ⟨?_, h2⟩
      calc (processGo env cb sc mr t2 (rc + 1) w st2 fuel).2.iters
          ≤ st2.iters + fuel := h1
        _ = st.iters + 1 + fuel := by rw [hit]
        _ = st.iters + (fuel + 1) := by omega

/-- Along the retry loop the local `retry_count` and `task.retry_count`
stay in lockstep, so every difficulty-call audit entry pairs equal
counters. -/
theorem processGo_diff_calls (env : PipelineEnv) (cb : ProgressCallback)
    (sc mr : Nat) :
    ∀ (fuel : Nat) (task : QuestionTask) (rc : Nat) (w : List String)
      (st : PipeState),
      task.retry_count = rc →
      (∀ p ∈ st.diff_calls, p.1 = p.2) →
      ∀ p ∈ (processGo env cb sc mr task rc w st fuel).2.diff_calls,
        p.1 = p.2 := by
  intro fuel
  induction fuel with
  | zero =>
    intro task rc w st _ hst p hp
    exact hst p hp
  | succ fuel ih =>
    intro task rc w st htask hst
    have hst1 : ∀ p ∈ (PipeState.mk st.events st.callback_errors (st.iters + 1)
        st.diff_calls).diff_calls, p.1 = p.2 := hst
    rcases stepIter_cases env cb sc mr task rc w { st with iters := st.iters + 1 }
      with ⟨r, st2, heq, _, _, hdc⟩ | ⟨t2, st2, heq, hrc2, _, hdc⟩
    · have hout : processGo env cb sc mr task rc w st (fuel + 1) = (r, st2) := by
        simp only [processGo, heq]
      rw [hout]
      intro p hp
      rcases hdc p hp with h | h
      · exact hst p h
      · rw [h, htask]
    · have hout : processGo env cb sc mr task rc w st (fuel + 1)
          = processGo env cb sc mr t2 (rc + 1) w st2 fuel := by
        simp only [processGo, heq]
      rw [hout]
      refine ih t2 (rc + 1) w st2 (by rw [hrc2, htask]) ?_
      intro p hp
      rcases hdc p hp with h | h
      · exact hst p h
      · rw [h, htask]

/-- One loop-body entry is oblivious to the progress callback: two runs
from states with equal cores, under arbitrary callbacks, take the same
branch, produce the same result/task, and leave equal cores (only the
logged callback errors may differ). -/
theorem stepIter_cb_congr (env : PipelineEnv) (cb1 cb2 : ProgressCallback)
    (sc mr : Nat) (task : QuestionTask) (rc : Nat) (w : List String)
    (st1 st2 : PipeState) (hcore : st1.core = st2.core) :
    stepOutCore (stepIter env cb1 sc mr task rc w st1)
      = stepOutCore (stepIter env cb2 sc mr task rc w st2) := by
  obtain ⟨he, hi, hd⟩ : st1.events = st2.events ∧ st1.iters = st2.iters
      ∧ st1.diff_calls = st2.diff_calls := by
    simpa [PipeState.core, Prod.ext_iff] using hcore
  simp only [stepIter]
  rcases hq : env.quota_exhausted rc with _ | _
  case true =>
    simp [stepOutCore, PipeState.core, he, hi, hd]
  case false =>
    rcases hqa : env.question_agent rc with e | q
    · simp [stepOutCore, PipeState.core, emit, he, hi, hd]
    · dsimp only
      rcases hqc : env.quality_check rc q with e | qc
      · simp [stepOutCore, PipeState.core, emit, he, hi, hd]
      · dsimp only
        rcases hqp : qc.passed with _ | _
        case false =>
          by_cases hrcmr : rc < mr
          · rw [if_pos (show (false = false ∧ rc < mr) from ⟨rfl, hrcmr⟩),
              if_pos (show (false = false ∧ rc < mr) from ⟨rfl, hrcmr⟩)]
            simp [stepOutCore, PipeState.core, emit, he, hi, hd]
          · rw [if_neg (show ¬ (false = false ∧ rc < mr) by simp [hrcmr]),
              if_neg (show ¬ (false = false ∧ rc < mr) by simp [hrcmr])]
            rcases hsg : env.solve_grades rc q with e | gs
            · simp [stepOutCore, PipeState.core, emit, he, hi, hd]
            · dsimp only
              by_cases hdec :
                  (DifficultyAgent.run q gs rc mr).decision = "approve"
              · rw [if_pos hdec, if_pos hdec]
                simp [stepOutCore, PipeState.core, emit, he, hi, hd]
              · rw [if_neg hdec, if_neg hdec]
                simp [stepOutCore, PipeState.core, emit, he, hi, hd]
        case true =>
          rcases hsg : env.solve_grades rc q with e | gs
          · simp [stepOutCore, PipeState.core, emit, he, hi, hd]
          · dsimp only
            by_cases hdec :
                (DifficultyAgent.run q gs rc mr).decision = "approve"
            · rw [if_pos hdec, if_pos hdec]
              simp [stepOutCore, PipeState.core, emit, he, hi, hd]
            · rw [if_neg hdec, if_neg hdec]
              simp [stepOutCore, PipeState.core, emit, he, hi, hd]

/-- The whole retry loop is oblivious to the progress callback: from states
with equal cores, arbitrary callbacks yield the same result and equal
cores. -/
theorem processGo_cb_congr (env : PipelineEnv) (sc mr : Nat) :
    ∀ (fuel : Nat) (task : QuestionTask) (rc : Nat) (w : List String)
      (cb1 cb2 : ProgressCallback) (st1 st2 : PipeState),
      st1.core = st2.core →
      (processGo env cb1 sc mr task rc w st1 fuel).1
        = (processGo env cb2 sc mr task rc w st2 fuel).1
      ∧ (processGo env cb1 sc mr task rc w st1 fuel).2.core
        = (processGo env cb2 sc mr task rc w st2 fuel).2.core := by
  intro fuel
  induction fuel with
  | zero =>
    intro task rc w cb1 cb2 st1 st2 hcore
    obtain ⟨he, hi, hd⟩ : st1.events = st2.events ∧ st1.iters = st2.iters
        ∧ st1.diff_calls = st2.diff_calls := by
      simpa [PipeState.core, Prod.ext_iff] using hcore
    exact ⟨rfl, by simp [processGo, PipeState.core, emit, he, hi, hd]⟩
  | succ fuel ih =>
    intro task rc w cb1 cb2 st1 st2 hcore
    have hcore1 : (PipeState.mk st1.events st1.callback_errors (st1.iters + 1)
        st1.diff_calls).core = (PipeState.mk st2.events st2.callback_errors
        (st2.iters + 1) st2.diff_calls).core := by
      obtain ⟨he, hi, hd⟩ : st1.events = st2.events ∧ st1.iters = st2.iters
          ∧ st1.diff_calls = st2.diff_calls := by
        simpa [PipeState.core, Prod.ext_iff] using hcore
      simp [PipeState.core, he, hi, hd]
    have hstep := stepIter_cb_congr env cb1 cb2 sc mr task rc w
      { st1 with iters := st1.iters + 1 } { st2 with iters := st2.iters + 1 }
      hcore1
    rcases h1 : stepIter env cb1 sc mr task rc w { st1 with iters := st1.iters + 1 }
      with ⟨r, sta⟩ | ⟨t2, sta⟩
      <;> rcases h2 : stepIter env cb2 sc mr task rc w { st2 with iters := st2.iters + 1 }
        with ⟨r2, stb⟩ | ⟨t22, stb⟩
      <;> rw [h1, h2] at hstep
      <;> simp only [stepOutCore, Sum.inl.injEq, Sum.inr.injEq, Prod.mk.injEq] at hstep
    · obtain ⟨hr, hc⟩ := hstep
      have o1 : processGo env cb1 sc mr task rc w st1 (fuel + 1) = (r, sta) := by
        simp only [processGo, h1]
      have o2 : processGo env cb2 sc mr task rc w st2 (fuel + 1) = (r2, stb) := by
        simp only [processGo, h2]
      rw [o1, o2]
      exact ⟨hr, hc⟩
    · exact absurd hstep (by simp)
    · exact absurd hstep (by simp)
    · obtain ⟨ht, hc⟩ := hstep
      have o1 : processGo env cb1 sc mr task rc w st1 (fuel + 1)
          = processGo env cb1 sc mr t2 (rc + 1) w sta fuel := by
        simp only [processGo, h1]
      have o2 : processGo env cb2 sc mr task rc w st2 (fuel + 1)
          = processGo env cb2 sc mr t22 (rc + 1) w stb fuel := by
        simp only [processGo, h2]
      rw [o1, o2, ht]
      exact ih t22 (rc + 1) w cb1 cb2 sta stb hc

/-- C4: for every position task and every behaviour of the content agents
(including a quality check that fails on every attempt, and agents that
raise) the per-position control loop enters its body at most
`max_retry + 1` times and ends in a terminal state: approved (question and
difficulty result present, possibly force-approved) or skipped (neither
present) — an uncaught agent exception being turned by the job-level
collection loop into a skip with a warning and no approved question. -/
theorem position_pipeline_terminates (env : PipelineEnv) (cb : ProgressCallback)
    (task : QuestionTask) (solve_count max_retry : Nat) :
    (processSingleQuestion env cb task solve_count max_retry).2.iters
        ≤ max_retry + 1
    ∧ TerminalShape (processSingleQuestion env cb task solve_count max_retry).1
    ∧ (∀ e : String, collect_approved [(task, .error e)] = []
        ∧ collect_warnings [(task, .error e)]
            = [exceptionSkipMsg task.position_index e]) := by
  obtain ⟨h1, h2⟩ := processGo_iters_shape env cb solve_count max_retry
    (max_retry + 1) task 0 [] PipeState.init
  refine ⟨?_, h2, fun e => ⟨rfl, rfl⟩⟩
  simpa [PipeState.init] using h1

/-- C6: quality-check failures and difficulty-calibration failures consume
one shared retry budget — at every `DifficultyAgent.run` call the local
`retry_count` handed to the calibrator equals the task's retry counter,
which is the same counter the quality-check path increments. -/
theorem retry_budget_shared (env : PipelineEnv) (cb : ProgressCallback)
    (task : QuestionTask) (solve_count max_retry : Nat)
    (h : task.retry_count = 0) :
    ∀ p ∈ (processSingleQuestion env cb task solve_count max_retry).2.diff_calls,
      p.1 = p.2 :=
  processGo_diff_calls env cb solve_count max_retry (max_retry + 1) task 0 []
    PipeState.init h (fun p hp => absurd hp (List.not_mem_nil p))

/-- Witness for `retry_budget_shared`: with a quality check that rejects the
first attempt, the calibrator is called once, at local counter 1 and task
counter 1 — the shared budget in lockstep. -/
theorem retry_budget_shared_witness :
    (processSingleQuestion qcFailOnceEnv dummyCallback taskPos1 5 3).2.diff_calls
        = [(1, 1)]
    ∧ ((processSingleQuestion qcFailOnceEnv dummyCallback taskPos1 5 3).2.diff_calls).all
        (fun p => p.1 == p.2) = true := by
  refine ⟨rfl, ?_⟩
  have h := retry_budget_shared qcFailOnceEnv dummyCallback taskPos1 5 3 rfl
  rw [List.all_eq_true]
  intro p hp
  simpa using h p hp

/-- C10: the per-position pipeline is isolated from its progress
subscribers — swapping the externally supplied callback for any other
(including one that raises on every event) changes neither the pipeline's
returned result nor the emitted event stream; `_emit` delivers the event
and merely logs one error line when the callback raises. -/
theorem progress_callback_isolated (env : PipelineEnv)
    (cb1 cb2 : ProgressCallback) (task : QuestionTask)
    (solve_count max_retry : Nat) :
    ((processSingleQuestion env cb1 task solve_count max_retry).1
        = (processSingleQuestion env cb2 task solve_count max_retry).1
      ∧ (processSingleQuestion env cb1 task solve_count max_retry).2.events
        = (processSingleQuestion env cb2 task solve_count max_retry).2.events)
    ∧ (∀ (cb : ProgressCallback) (st : PipeState) (e : String) (d : Payload)
        (err : String), cb e d = .error err →
        (emit cb st e d).events = st.events ++ [(e, d)]
        ∧ ∃ msg, (emit cb st e d).callback_errors
            = st.callback_errors ++ [msg]) := by
  constructor
  · obtain ⟨h1, h2⟩ := processGo_cb_congr env solve_count max_retry
      (max_retry + 1) task 0 [] cb1 cb2 PipeState.init PipeState.init rfl
    refine ⟨h1, ?_⟩
    have := congrArg Prod.fst h2
    simpa [PipeState.core] using this
  · intro cb st e d err herr
    refine ⟨rfl, ?_⟩
    simp only [emit, herr]
    exact ⟨_, rfl⟩

/-- Witness for `progress_callback_isolated`: a callback that raises on
every event yields the same pipeline result as one that never raises, and
`_emit` still records the event while logging the failure. -/
theorem progress_callback_isolated_witness :
    ((processSingleQuestion qcFailOnceEnv throwingCallback taskPos1 5 3).1
        = (processSingleQuestion qcFailOnceEnv dummyCallback taskPos1 5 3).1)
    ∧ (emit throwingCallback PipeState.init "question_start" []).events
        = PipeState.init.events ++ [("question_start", [])] := by
  have h := progress_callback_isolated qcFailOnceEnv throwingCallback
    dummyCallback taskPos1 5 3
  exact ⟨h.1.1,
    (h.2 throwingCallback PipeState.init "question_start" [] "subscriber down"
      rfl).1⟩

/-- A pipeline that observes the armed quota flag at the top of an
iteration returns immediately: skipped, with the quota reason appended. -/
theorem processGo_quota_exhausted (env : PipelineEnv) (cb : ProgressCallback)
    (sc mr : Nat) (task : QuestionTask) (rc : Nat) (w : List String)
    (st : PipeState) (fuel : Nat) (h : env.quota_exhausted rc = true) :
    processGo env cb sc mr task rc w st (fuel + 1)
      = (.ok (none, none, w ++ [quotaSkipMsg task.position_index]),
        { st with iters := st.iters + 1 }) := by
  simp only [processGo, stepIter, h]
  rfl

/-- The second merge loop only ever appends, so the merged dict never
shrinks. -/
theorem merge_second_loop_length_le :
    ∀ (pairs : List (QuestionTask × Except String PipeResult))
      (merged : List (Nat × GeneratedQuestion)),
      merged.length ≤ (merge_second_loop pairs merged).length := by
  intro pairs
  induction pairs with
  | nil => intro merged; exact Nat.le_refl _
  | cons tr rest ih =>
    intro merged
    obtain ⟨task, result⟩ := tr
    simp only [merge_second_loop]
    split
    · exact ih merged
    · split
      all_goals
        first
          | exact ih merged
          | exact le_trans (by simp) (ih _)

/-- A restorable checkpoint entry always lands in the first merge loop's
output (either the overriding new result or the restored question). -/
theorem merge_first_loop_ne_nil (existing : List (Nat × CheckpointEntry))
    (newq : List (Nat × GeneratedQuestion)) (pos : Nat)
    (s : SerializedQuestion) (hmem : (pos, CheckpointEntry.valid s) ∈ existing) :
    merge_first_loop existing newq ≠ [] := by
  have : ∃ y, y ∈ merge_first_loop existing newq := by
    rcases hl : newq.lookup pos with _ | q
    · refine ⟨(pos, restoreQuestion pos s), List.mem_filterMap.mpr
        ⟨(pos, CheckpointEntry.valid s), hmem, ?_⟩⟩
      simp only [hl]
    · refine ⟨(pos, q), List.mem_filterMap.mpr
        ⟨(pos, CheckpointEntry.valid s), hmem, ?_⟩⟩
      simp only [hl]
  obtain ⟨y, hy⟩ := this
  exact List.ne_nil_of_mem hy

/-- `generate` never returns: when the final approved list is empty it
raises the empty-paper hard failure, and when it is nonempty the
assembler's constructor validation error propagates out instead
(exam_paper_generator.py:400-411). -/
theorem generateModel_always_error (existing : List (Nat × CheckpointEntry))
    (tasks : List QuestionTask) (results : List (Except String PipeResult)) :
    generateModel existing tasks results
      = .error (if generateApproved existing (tasks.zip results) = []
                then "所有题目均未通过审核，组卷失败"
                else assembleValidationError) := by
  simp only [generateModel]
  by_cases h : generateApproved existing (tasks.zip results) = []
  · rw [if_pos (by simpa [List.isEmpty_iff] using h), if_pos h]
  · rw [if_neg (by simpa [List.isEmpty_iff] using h), if_neg h]
    rfl

/-- C2 (amended): a pipeline that observes the armed quota flag on its
first slot acquisition terminates skipped with exactly the quota warning;
the job then finishes `failed`, not `completed` — with every position
skipped the approved list is empty and `generate` raises its empty-paper
hard failure.  The hard failure fires exactly when the final approved list
is empty (in particular never when a prior checkpoint contains at least
one restorable entry); when the approved list is nonempty, `generate`
raises the assembler's constructor validation error instead, so every run
reaching `generate` ends `failed`. -/
theorem quota_exhausted_all_skipped_job_fails :
    (∀ (env : PipelineEnv) (cb : ProgressCallback) (task : QuestionTask)
        (sc mr : Nat), env.quota_exhausted 0 = true →
        (processSingleQuestion env cb task sc mr).1
          = .ok (none, none, [quotaSkipMsg task.position_index]))
    ∧ (∀ (existing : List (Nat × CheckpointEntry)) (tasks : List QuestionTask)
        (results : List (Except String PipeResult)),
        runAsyncFinalStatus (generateModel existing tasks results) = "failed"
        ∧ (generateModel existing tasks results
              = .error "所有题目均未通过审核，组卷失败"
            ↔ generateApproved existing (tasks.zip results) = []))
    ∧ (∀ (existing : List (Nat × CheckpointEntry)) (tasks : List QuestionTask)
        (results : List (Except String PipeResult)) (pos : Nat)
        (s : SerializedQuestion),
        (pos, CheckpointEntry.valid s) ∈ existing →
        generateApproved existing (tasks.zip results) ≠ []) := by
  refine ⟨?_, ?_, ?_⟩
  · intro env cb task sc mr h
    have heq := processGo_quota_exhausted env cb sc mr task 0 [] PipeState.init mr h
    simp only [processSingleQuestion, heq, List.nil_append]
  · intro existing tasks results
    refine ⟨by rw [generateModel_always_error]; rfl, ?_⟩
    rw [generateModel_always_error]
    by_cases h : generateApproved existing (tasks.zip results) = []
    · simp [h]
    · rw [if_neg h]
      constructor
      · intro hcontra
        injection hcontra with hs
        exact absurd hs (by decide)
      · intro hc
        exact absurd hc h
  · intro existing tasks results pos s hmem h
    have hne : existing ≠ [] := List.ne_nil_of_mem hmem
    have h1 := merge_first_loop_ne_nil existing (new_q_by_pos (tasks.zip results))
      pos s hmem
    have h2 : 0 < (merge_first_loop existing (new_q_by_pos (tasks.zip results))).length :=
      List.length_pos.mpr h1
    have h3 := merge_second_loop_length_le (tasks.zip results)
      (merge_first_loop existing (new_q_by_pos (tasks.zip results)))
    simp only [generateApproved, List.isEmpty_iff] at h
    rw [if_neg hne] at h
    have h4 := congrArg List.length h
    simp only [List.length_map, List.length_nil] at h4
    have h5 : (sortByPosition (merge_second_loop (tasks.zip results)
        (merge_first_loop existing (new_q_by_pos (tasks.zip results))))).length
        = (merge_second_loop (tasks.zip results)
          (merge_first_loop existing (new_q_by_pos (tasks.zip results)))).length :=
      (List.mergeSort_perm _ _).length_eq
    omega

/-- Witness for `quota_exhausted_all_skipped_job_fails`: the armed flag
skips position 2 with the quota reason, and a checkpoint holding one
restorable entry keeps the hard failure from firing even with no new
results at all. -/
theorem quota_exhausted_all_skipped_job_fails_witness :
    (processSingleQuestion envQuotaSet dummyCallback taskPos2 5 3).1
      = .ok (none, none, [quotaSkipMsg 2])
    ∧ generateApproved
        [(1, CheckpointEntry.valid (serializeQuestion mediumQuestionExample))]
        (([] : List QuestionTask).zip ([] : List (Except String PipeResult)))
      ≠ [] := by
  constructor
  · exact quota_exhausted_all_skipped_job_fails.1 envQuotaSet dummyCallback
      taskPos2 5 3 rfl
  · exact quota_exhausted_all_skipped_job_fails.2.2 _ [] [] 1
      (serializeQuestion mediumQuestionExample) (List.mem_singleton.mpr rfl)

/-- C2 counterexample: with the quota reported exhausted before any
position runs (the armed flag being the only mechanism by which the
pipelines can observe that) and no checkpoint, both positions of a
two-question job are skipped, the approved list is empty, `generate`
raises, and the job status is `failed` — not `completed` as the claim
states. -/
theorem quota_exhausted_scenario_counterexample :
    runAsyncFinalStatus (generateModel [] [taskPos1, taskPos2]
      [(processSingleQuestion envQuotaSet dummyCallback taskPos1 5 3).1,
       (processSingleQuestion envQuotaSet dummyCallback taskPos2 5 3).1])
      = "failed"
    ∧ "failed" ≠ "completed" := by
  exact ⟨rfl, by decide⟩

/-- C1 evidence: for a freshly submitted three-question job whose owner's
enabled grant has `cap − used = 0`, `_run_async` estimates a positive token
cost for the remaining positions — `check_quota` would reject it — yet the
admission phase hands `generate` an unarmed quota flag (the `asyncio.Event`
is created at exam_paper_task.py:164 and no statement of `_run_async` ever
sets it, nor is `check_quota` called there); meanwhile the pipeline side is
wired: a position that observes the armed flag terminates skipped with the
quota reason. -/
theorem run_async_quota_flag_never_armed :
    (runAsyncSetup jobPending3 2000 5).map
        (fun s => (s.quota_exhausted_armed, s.estimated,
          (check_quota (some permZeroCap) s.estimated).1))
      = some (false, 32400, false)
    ∧ (processSingleQuestion envQuotaSet dummyCallback taskPos1 5 3).1
      = .ok (none, none, [quotaSkipMsg 1]) := by
  constructor
  · have hest : estimate_tokens 3 5 2000 = 32400 := by
      unfold estimate_tokens pyInt
      rw [if_neg (by norm_num)]
      rw [show ((3 : Int) : ℚ) * ((2000 : Int) : ℚ)
          * (1 + 1/2 + ((5 : Int) : ℚ) * (3/10) + ((5 : Int) : ℚ) * (3/10))
          * (12/10) = ((32400 : ℤ) : ℚ) by norm_num]
      exact Int.floor_intCast 32400
    have hsetup : runAsyncSetup jobPending3 2000 5
        = some { already_done := []
                 remaining_questions := 3
                 estimated := estimate_tokens 3 5 2000
                 quota_exhausted_armed := false } := by
      simp only [runAsyncSetup, jobPending3]
      rw [if_pos (Or.inl trivial)]
      norm_num
    rw [hsetup, hest]
    decide
  · have heq := processGo_quota_exhausted envQuotaSet dummyCallback 5 3 taskPos1
      0 [] PipeState.init 3 rfl
    simp only [processSingleQuestion, heq, List.nil_append]
    rfl

/-- Tier 2 honours its exclusion set. -/
theorem layer2_excludes (db : List ExamQuestionRow)
    (subject question_type : String) (position_index limit : Nat)
    (excluded_ids : List Nat) :
    ∀ x ∈ layer2_cross_region db subject question_type position_index limit
      excluded_ids, x.id ∉ excluded_ids := by
  intro x hx
  have hx1 := List.mem_of_mem_take hx
  have hx2 := (List.mergeSort_perm _ _).mem_iff.mp hx1
  have hx3 := List.of_mem_filter hx2
  simp only [Bool.and_eq_true, Bool.not_eq_eq_eq_not, Bool.not_true] at hx3
  have := hx3.2
  simp at this
  exact this

/-- Tier 3 honours its exclusion set. -/
theorem layer3_excludes (db : List ExamQuestionRow)
    (subject question_type : String) (limit : Nat) (excluded_ids : List Nat)
    (embed : Option (ExamQuestionRow → ℚ)) :
    ∀ x ∈ layer3_semantic db subject question_type limit excluded_ids embed,
      x.id ∉ excluded_ids := by
  intro x hx
  rcases embed with _ | dist
  · exact absurd hx (List.not_mem_nil x)
  · have hx1 := List.mem_of_mem_take hx
    have hx2 := (List.mergeSort_perm _ _).mem_iff.mp hx1
    have hx3 := List.of_mem_filter hx2
    simp only [Bool.and_eq_true, Bool.not_eq_eq_eq_not, Bool.not_true] at hx3
    have := hx3.2
    simp at this
    exact this

/-- C7: the three-tier lookup consults tier 2 and tier 3 only for the
shortfall of `k` (with a full tier 1 the output is tier 1 alone and is
independent of the embedding backend), excludes from each later tier the
ids already returned, concatenates the tiers in order without re-ranking
across them, returns at most `k` rows, and a tier-3 embedding failure
contributes nothing instead of raising. -/
theorem exam_retriever_three_tier (db : List ExamQuestionRow)
    (subject question_type : String) (position_index : Nat) (region : String)
    (k : Nat) (embed : Option (ExamQuestionRow → ℚ)) :
    ((layer1_exact db subject question_type position_index region k).length ≥ k →
      get_same_position_examples db subject question_type position_index region
          k embed
        = (layer1_exact db subject question_type position_index region k).take k
      ∧ ∀ embed2, get_same_position_examples db subject question_type
          position_index region k embed2
        = get_same_position_examples db subject question_type position_index
          region k embed)
    ∧ (get_same_position_examples db subject question_type position_index
        region k embed).length ≤ k
    ∧ (∃ l2 l3,
        get_same_position_examples db subject question_type position_index
            region k embed
          = ((layer1_exact db subject question_type position_index region k)
              ++ l2 ++ l3).take k
        ∧ (∀ x ∈ l2, x.id ∉ (layer1_exact db subject question_type
            position_index region k).map (fun r => r.id))
        ∧ (∀ x ∈ l3, x.id ∉ ((layer1_exact db subject question_type
            position_index region k) ++ l2).map (fun r => r.id)))
    ∧ (embed = none →
        get_same_position_examples db subject question_type position_index
            region k embed
          = ((layer1_exact db subject question_type position_index region k)
              ++ layer2_cross_region db subject question_type position_index
                (k - (layer1_exact db subject question_type position_index
                  region k).length)
                ((layer1_exact db subject question_type position_index region
                  k).map (fun r => r.id))).take k) := by
  simp only [get_same_position_examples]
  by_cases h1 : (layer1_exact db subject question_type position_index region
      k).length ≥ k
  · rw [if_pos h1]
    refine ⟨fun _ => ⟨rfl, fun embed2 => by rw [if_pos h1]⟩,
      List.length_take_le _ _,
      ⟨[], [], ?_, fun x hx => absurd hx (List.not_mem_nil x),
        fun x hx => absurd hx (List.not_mem_nil x)⟩, fun _ => ?_⟩
    · rw [List.append_nil, List.append_nil]
    · rw [List.take_append_of_le_length h1]
  · rw [if_neg h1]
    by_cases h2 : ((layer1_exact db subject question_type position_index
          region k)
        ++ layer2_cross_region db subject question_type position_index
          (k - (layer1_exact db subject question_type position_index region
            k).length)
          ((layer1_exact db subject question_type position_index region
            k).map (fun r => r.id))).length ≥ k
    · rw [if_pos h2]
      refine ⟨fun hc => absurd hc h1, List.length_take_le _ _,
        ⟨layer2_cross_region db subject question_type position_index
            (k - (layer1_exact db subject question_type position_index region
              k).length)
            ((layer1_exact db subject question_type position_index region
              k).map (fun r => r.id)),
          [], ?_, layer2_excludes db subject question_type position_index _ _,
          fun x hx => absurd hx (List.not_mem_nil x)⟩, fun _ => ?_⟩
      · rw [List.append_nil]
      · rfl
    · rw [if_neg h2]
      refine ⟨fun hc => absurd hc h1, List.length_take_le _ _,
        ⟨layer2_cross_region db subject question_type position_index
            (k - (layer1_exact db subject question_type position_index region
              k).length)
            ((layer1_exact db subject question_type position_index region
              k).map (fun r => r.id)),
          layer3_semantic db subject question_type
            (k - ((layer1_exact db subject question_type position_index region
                k)
              ++ layer2_cross_region db subject question_type position_index
                (k - (layer1_exact db subject question_type position_index
                  region k).length)
                ((layer1_exact db subject question_type position_index region
                  k).map (fun r => r.id))).length)
            (((layer1_exact db subject question_type position_index region k)
              ++ layer2_cross_region db subject question_type position_index
                (k - (layer1_exact db subject question_type position_index
                  region k).length)
                ((layer1_exact db subject question_type position_index region
                  k).map (fun r => r.id))).map (fun r => r.id)) embed,
          ?_, layer2_excludes db subject question_type position_index _ _,
          layer3_excludes db subject question_type _ _ embed⟩, ?_⟩
      · rw [List.append_assoc]
      · intro he
        rw [he]
        simp only [layer3_semantic, List.append_nil]

/-- Witness for `exam_retriever_three_tier` at a concrete database: with a
full tier 1 the output is tier 1 alone regardless of the embedding
backend. -/
theorem exam_retriever_three_tier_witness :
    (layer1_exact [⟨1, "生物", "single_choice", 1, "全国甲卷", 2023, true⟩]
        "生物" "single_choice" 1 "全国甲卷" 1).length ≥ 1
    ∧ get_same_position_examples
        [⟨1, "生物", "single_choice", 1, "全国甲卷", 2023, true⟩]
        "生物" "single_choice" 1 "全国甲卷" 1 none
      = (layer1_exact [⟨1, "生物", "single_choice", 1, "全国甲卷", 2023, true⟩]
          "生物" "single_choice" 1 "全国甲卷" 1).take 1 := by
  have h := exam_retriever_three_tier
    [⟨1, "生物", "single_choice", 1, "全国甲卷", 2023, true⟩]
    "生物" "single_choice" 1 "全国甲卷" 1 none
  have hl1 : layer1_exact [⟨1, "生物", "single_choice", 1, "全国甲卷", 2023, true⟩]
      "生物" "single_choice" 1 "全国甲卷" 1
      = [⟨1, "生物", "single_choice", 1, "全国甲卷", 2023, true⟩] := by
    unfold layer1_exact
    simp
  have hlen : (layer1_exact [⟨1, "生物", "single_choice", 1, "全国甲卷", 2023, true⟩]
      "生物" "single_choice" 1 "全国甲卷" 1).length ≥ 1 := by
    rw [hl1]
    decide
  exact ⟨hlen, (h.1 hlen).1⟩

/-- A `filterMap` whose function is an if-some-else-none is a filter
followed by a map. -/
theorem filterMap_if_eq_map_filter {α β : Type} (p : α → Bool) (g : α → β)
    (f : α → Option β) (hf : ∀ a, f a = if p a then some (g a) else none) :
    ∀ l : List α, l.filterMap f = (l.filter p).map g := by
  intro l
  induction l with
  | nil => rfl
  | cons a t ih =>
    rcases hp : p a with _ | _
    · rw [List.filterMap_cons, hf a, if_neg (by simp [hp]), List.filter_cons,
        hp]
      simpa using ih
    · rw [List.filterMap_cons, hf a, if_pos (by simp [hp]), List.filter_cons,
        hp]
      simpa using ih

/-- Two pointwise-equal functions give the same `filterMap`. -/
theorem filterMap_ext {α β : Type} (f g : α → Option β)
    (h : ∀ a, f a = g a) (l : List α) : l.filterMap f = l.filterMap g :=
  congrArg (fun f => List.filterMap f l) (funext h)

/-- The numbering the assembler computes before its result construction
numbers the questions it receives 1, 2, …, in input order: the number
column is exactly `range' 1 len` (contiguous, duplicate free) and the
question column is the input list unchanged. -/
theorem assembleComputed_numbering (qs : List GeneratedQuestion)
    (diffs : List DifficultyResult) :
    (assembleComputed qs diffs).numbered.map Prod.fst = List.range' 1 qs.length
    ∧ (assembleComputed qs diffs).numbered.map Prod.snd = qs := by
  constructor
  · show (qs.enum.map (fun iq => (iq.1 + 1, iq.2))).map Prod.fst
        = List.range' 1 qs.length
    rw [List.map_map]
    have h1 : (Prod.fst ∘ fun iq : Nat × GeneratedQuestion => (iq.1 + 1, iq.2))
        = (fun x => x + 1) ∘ Prod.fst := rfl
    rw [h1, ← List.map_map, List.enum_map_fst, List.range'_eq_map_range]
    exact List.map_congr_left (fun a _ => Nat.add_comm a 1)
  · show (qs.enum.map (fun iq => (iq.1 + 1, iq.2))).map Prod.snd = qs
    rw [List.map_map]
    have h1 : (Prod.snd ∘ fun iq : Nat × GeneratedQuestion => (iq.1 + 1, iq.2))
        = Prod.snd := rfl
    rw [h1, List.enum_map_snd]

/-- Two strictly key-sorted association lists that are permutations of each
other are equal. -/
theorem strict_sorted_key_perm_eq {α : Type} :
    ∀ {l1 l2 : List (Nat × α)}, l1.Perm l2 →
      l1.Pairwise (fun a b => a.1 < b.1) →
      l2.Pairwise (fun a b => a.1 < b.1) → l1 = l2 := by
  intro l1
  induction l1 with
  | nil =>
    intro l2 hp _ _
    exact (hp.symm.eq_nil).symm
  | cons a t ih =>
    intro l2 hp h1 h2
    rcases l2 with _ | ⟨b, t2⟩
    · exact absurd hp.eq_nil (by simp)
    · have hab : a = b := by
        by_contra hne
        have ha2 : a ∈ b :: t2 := hp.mem_iff.mp (List.mem_cons_self a t)
        have hat2 : a ∈ t2 := by
          rcases List.mem_cons.mp ha2 with h | h
          · exact absurd h hne
          · exact h
        have hb1 : b ∈ a :: t := hp.mem_iff.mpr (List.mem_cons_self b t2)
        have hbt : b ∈ t := by
          rcases List.mem_cons.mp hb1 with h | h
          · exact absurd h.symm hne
          · exact h
        have hlt1 : a.1 < b.1 := (List.pairwise_cons.mp h1).1 b hbt
        have hlt2 : b.1 < a.1 := (List.pairwise_cons.mp h2).1 a hat2
        omega
      subst hab
      have hp2 := hp.cons_inv
      rw [ih hp2 (List.pairwise_cons.mp h1).2 (List.pairwise_cons.mp h2).2]

/-- `sortByPosition` sorts weakly by key. -/
theorem sortByPosition_sorted_le (l : List (Nat × GeneratedQuestion)) :
    (sortByPosition l).Pairwise (fun a b => a.1 ≤ b.1) := by
  have h := @List.sorted_mergeSort (Nat × GeneratedQuestion)
    (fun a b => decide (a.1 ≤ b.1))
    (fun a b c hab hbc => by
      simp only [decide_eq_true_iff] at hab hbc ⊢
      omega)
    (fun a b => by
      rcases Nat.le_total a.1 b.1 with h | h <;> simp [h])
    l
  refine h.imp ?_
  intro a b hab
  simpa using hab

/-- Weak key sorting plus duplicate-free keys is strict key sorting. -/
theorem pairwise_le_nodup_lt {α : Type} (l : List (Nat × α))
    (hle : l.Pairwise (fun a b => a.1 ≤ b.1))
    (hnd : (l.map Prod.fst).Nodup) :
    l.Pairwise (fun a b => a.1 < b.1) := by
  have hne : l.Pairwise (fun a b => a.1 ≠ b.1) := List.pairwise_map.mp hnd
  exact (hle.and hne).imp (fun h => lt_of_le_of_ne h.1 h.2)

/-- The `sorted(merged.items())` step is insertion-order independent: any
two permutations of the same duplicate-free-keyed entries sort to the same
list — the assembled order is fixed by the position indices alone,
regardless of the order in which concurrent pipelines delivered them. -/
theorem sortByPosition_perm_invariant (l1 l2 : List (Nat × GeneratedQuestion))
    (hperm : l1.Perm l2) (hnd : (l1.map Prod.fst).Nodup) :
    sortByPosition l1 = sortByPosition l2 := by
  have hp1 : (sortByPosition l1).Perm l1 := List.mergeSort_perm _ _
  have hp2 : (sortByPosition l2).Perm l2 := List.mergeSort_perm _ _
  have hnd2 : (l2.map Prod.fst).Nodup := ((hperm.map Prod.fst).nodup_iff).mp hnd
  have hnds1 : ((sortByPosition l1).map Prod.fst).Nodup :=
    ((hp1.map Prod.fst).nodup_iff).mpr hnd
  have hnds2 : ((sortByPosition l2).map Prod.fst).Nodup :=
    ((hp2.map Prod.fst).nodup_iff).mpr hnd2
  exact strict_sorted_key_perm_eq
    (hp1.trans (hperm.trans hp2.symm))
    (pairwise_le_nodup_lt _ (sortByPosition_sorted_le l1) hnds1)
    (pairwise_le_nodup_lt _ (sortByPosition_sorted_le l2) hnds2)

/-- The task builder's inner loop emits exactly the positions
`start+1 … start+count` that are not checkpointed, in increasing order. -/
theorem dispatch_type_positions (qtype : String) (count : Nat)
    (dist : DifficultyDistribution) (already_done : List Nat)
    (kp : Nat → String) (start_pos : Nat) :
    (dispatch_type qtype count dist already_done kp start_pos).map
        (fun t => t.position_index)
      = (List.range' (start_pos + 1) count).filter
          (fun p => !(already_done.contains p)) := by
  unfold dispatch_type
  rw [List.map_filterMap]
  rw [filterMap_if_eq_map_filter
    (fun q_idx => !(already_done.contains (start_pos + q_idx + 1)))
    (fun q_idx => start_pos + q_idx + 1) _ ?_ (List.range count)]
  · rw [List.range'_eq_map_range, List.filter_map]
    have : ((fun p => !(already_done.contains p))
          ∘ fun x => start_pos + 1 + x)
        = fun q_idx => !(already_done.contains (start_pos + q_idx + 1)) := by
      funext x
      simp only [Function.comp]
      have hx : start_pos + 1 + x = start_pos + x + 1 := by omega
      rw [hx]
    rw [this]
    refine List.map_congr_left ?_
    intro a _
    omega
  · intro a
    dsimp only
    rcases hc : already_done.contains (start_pos + a + 1) with _ | _ <;> rfl

/-- The task builder overall emits exactly the non-checkpointed positions
`start+1 … start+total`, in increasing order. -/
theorem dispatch_go_positions (dist : DifficultyDistribution)
    (already_done : List Nat) (kp : Nat → String) :
    ∀ (ds : List QuestionTypeConfig) (start_pos : Nat),
      (dispatch_go dist already_done kp ds start_pos).map
          (fun t => t.position_index)
        = (List.range' (start_pos + 1) (total_count ds)).filter
            (fun p => !(already_done.contains p)) := by
  intro ds
  induction ds with
  | nil => intro start_pos; rfl
  | cons c rest ih =>
    intro start_pos
    simp only [dispatch_go, List.map_append]
    rw [dispatch_type_positions, ih]
    have hsum : total_count (c :: rest) = total_count rest + c.count := by
      simp only [total_count, List.map_cons, List.sum_cons]
      omega
    rw [hsum, show start_pos + c.count + 1 = start_pos + 1 + 1 * c.count by
        omega,
      ← List.range'_append (start_pos + 1) c.count (total_count rest) 1,
      List.filter_append]

/-- C9 helper: `dispatch` emits no task for a checkpointed position. -/
theorem dispatch_skips_checkpointed (requirement : PaperRequirement)
    (already_done : List Nat) (kp : Nat → String) :
    ∀ t ∈ dispatch requirement already_done kp,
      t.position_index ∉ already_done := by
  intro t ht
  have hmem : t.position_index ∈ (dispatch requirement already_done kp).map
      (fun t => t.position_index) := List.mem_map_of_mem _ ht
  rw [dispatch, dispatch_go_positions] at hmem
  have := List.of_mem_filter hmem
  simp at this
  exact this

/-- When every position pipeline approves, the collection loop keeps one
question per task. -/
theorem collect_approved_length (tasks : List QuestionTask) :
    ∀ results : List (Except String PipeResult),
      results.length = tasks.length →
      (∀ r ∈ results, ∃ q d w, r = .ok (some q, some d, w)) →
      (collect_approved (tasks.zip results)).length = tasks.length := by
  induction tasks with
  | nil =>
    intro results _ _
    simp [collect_approved]
  | cons t ts ih =>
    intro results hlen hall
    rcases results with _ | ⟨r, rs⟩
    · simp at hlen
    · obtain ⟨q, d, w, rfl⟩ := hall r (List.mem_cons_self r rs)
      have : collect_approved ((t :: ts).zip (Except.ok (some q, some d, w) :: rs))
          = q :: collect_approved (ts.zip rs) := rfl
      rw [this, List.length_cons, List.length_cons,
        ih rs (by simpa using hlen)
          (fun r hr => hall r (List.mem_cons_of_mem _ hr))]

/-- `approvedPosOf` is the position of the pairs that pass
`isApprovedPair`. -/
theorem approvedPosOf_eq_if (a : QuestionTask × Except String PipeResult) :
    approvedPosOf a
      = if isApprovedPair a then some a.1.position_index else none := by
  rcases a with ⟨task, result⟩
  rcases result with e | r
  · rfl
  · rcases r with ⟨oq, od, w⟩
    rcases oq with _ | q <;> rfl

/-- The positions of the approved results keep the (strictly increasing)
gather order. -/
theorem approved_positions_pairwise
    (pairs : List (QuestionTask × Except String PipeResult))
    (h : pairs.Pairwise (fun a b => a.1.position_index < b.1.position_index)) :
    (pairs.filterMap approvedPosOf).Pairwise (· < ·) := by
  rw [filterMap_if_eq_map_filter isApprovedPair
    (fun tr => tr.1.position_index) approvedPosOf approvedPosOf_eq_if pairs]
  exact List.pairwise_map.mpr (h.filter _)

/-- The task builder emits tasks in strictly increasing position order. -/
theorem dispatch_positions_pairwise (requirement : PaperRequirement)
    (already_done : List Nat) (kp : Nat → String) :
    (dispatch requirement already_done kp).Pairwise
      (fun a b => a.position_index < b.position_index) := by
  have h0 : ((dispatch requirement already_done kp).map
      (fun t => t.position_index)).Pairwise (· < ·) := by
    simp only [dispatch]
    rw [dispatch_go_positions]
    exact (List.pairwise_lt_range' _ _ 1).filter _
  exact List.pairwise_map.mp h0

/-- C3 evidence: the numbering `AssembleAgent.run` computes —
`enumerate(questions, 1)` at assemble_agent.py:86 — numbers its input
questions exactly `1 … K` in input order, contiguous and duplicate-free,
where `K` is the count of questions handed over (equal to
`total_questions` only when no position was skipped), and the
`sorted(merged.items())` order the orchestrator feeds it is
insertion-order invariant, so the intended assembled ordering is
independent of the completion order of the concurrent pipelines; but the
result construction at assemble_agent.py:122-126 passes
`markdown_content` to a model whose required content field is
`json_content` (schemas.py:173-176), so `AssembleAgent.run` raises a
validation error on every call, `generate` never returns, and no
assembled question list is ever produced for any job. -/
theorem assembler_result_constructor_mismatch :
    (∀ (qs : List GeneratedQuestion) (diffs : List DifficultyResult),
        (assembleComputed qs diffs).numbered.map Prod.fst
            = List.range' 1 qs.length
        ∧ (assembleComputed qs diffs).numbered.map Prod.snd = qs
        ∧ assembleRun qs diffs = .error assembleValidationError)
    ∧ (∀ (existing : List (Nat × CheckpointEntry)) (tasks : List QuestionTask)
        (results : List (Except String PipeResult)) (out : GenerateOutput),
        generateModel existing tasks results ≠ .ok out)
    ∧ (∀ l1 l2 : List (Nat × GeneratedQuestion), l1.Perm l2 →
        (l1.map Prod.fst).Nodup → sortByPosition l1 = sortByPosition l2) := by
  refine ⟨fun qs diffs => ⟨(assembleComputed_numbering qs diffs).1,
    (assembleComputed_numbering qs diffs).2, rfl⟩, ?_,
    sortByPosition_perm_invariant⟩
  intro existing tasks results out h
  rw [generateModel_always_error] at h
  exact Except.noConfusion h

/-- Witness for `assembler_result_constructor_mismatch`: a concrete
two-entry merged dict sorts identically from either arrival order, and
the assembler raises on a concrete one-question input. -/
theorem assembler_result_constructor_mismatch_witness :
    sortByPosition [(1, mediumQuestionExample), (2, hardQuestionExample)]
        = sortByPosition [(2, hardQuestionExample), (1, mediumQuestionExample)]
    ∧ assembleRun [mediumQuestionExample] []
        = .error assembleValidationError := by
  constructor
  · exact assembler_result_constructor_mismatch.2.2
      [(1, mediumQuestionExample), (2, hardQuestionExample)]
      [(2, hardQuestionExample), (1, mediumQuestionExample)]
      (by decide) (by decide)
  · exact (assembler_result_constructor_mismatch.1 [mediumQuestionExample] []).2.2

/-- Lookup misses keys that are absent. -/
theorem lookup_eq_none_of_not_mem {α : Type} :
    ∀ (l : List (Nat × α)) (k : Nat), k ∉ l.map Prod.fst →
      l.lookup k = none := by
  intro l
  induction l with
  | nil => intro k _; rfl
  | cons p t ih =>
    intro k hk
    obtain ⟨p1, p2⟩ := p
    simp only [List.map_cons, List.mem_cons, not_or] at hk
    rw [List.lookup_cons]
    rw [show (k == p1) = false by simpa using hk.1]
    exact ih k hk.2

/-- Lookup in a concatenation sticks to the left part when the key is
there. -/
theorem lookup_append_left {α : Type} :
    ∀ (l1 l2 : List (Nat × α)) (k : Nat), (l1.lookup k).isSome →
      (l1 ++ l2).lookup k = l1.lookup k := by
  intro l1
  induction l1 with
  | nil => intro l2 k h; simp [List.lookup] at h
  | cons p t ih =>
    intro l2 k h
    obtain ⟨p1, p2⟩ := p
    rcases hb : (k == p1) with _ | _
    · rw [List.cons_append, List.lookup_cons, hb, List.lookup_cons, hb]
      have h' : (t.lookup k).isSome := by
        rw [List.lookup_cons, hb] at h
        exact h
      exact ih l2 k h'
    · rw [List.cons_append, List.lookup_cons, hb, List.lookup_cons, hb]

/-- Every key of the first merge loop's output is a checkpoint key. -/
theorem merge_first_loop_keys_subset (newq : List (Nat × GeneratedQuestion)) :
    ∀ (existing : List (Nat × CheckpointEntry)) (y : Nat × GeneratedQuestion),
      y ∈ merge_first_loop existing newq → y.1 ∈ existing.map Prod.fst := by
  intro existing y hy
  obtain ⟨pe, hpe, hf⟩ := List.mem_filterMap.mp hy
  have : y.1 = pe.1 := by
    rcases hl : newq.lookup pe.1 with _ | q
    · rcases he : pe.2 with s | raw
      · simp only [hl, he] at hf
        injection hf with hf2
        rw [← hf2]
      · simp only [hl, he] at hf
        exact absurd hf (by simp)
    · simp only [hl] at hf
      injection hf with hf2
      rw [← hf2]
  rw [this]
  exact List.mem_map_of_mem Prod.fst hpe

/-- The first merge loop prefers a new result for a checkpointed position
and otherwise restores the stored entry unchanged (a malformed entry is
dropped). -/
theorem merge_first_loop_lookup :
    ∀ (existing : List (Nat × CheckpointEntry))
      (newq : List (Nat × GeneratedQuestion)) (pos : Nat)
      (entry : CheckpointEntry), (pos, entry) ∈ existing →
      (existing.map Prod.fst).Nodup →
      (merge_first_loop existing newq).lookup pos
        = match newq.lookup pos with
          | some q => some q
          | none =>
            match entry with
            | .valid s => some (restoreQuestion pos s)
            | .malformed _ => none := by
  intro existing
  induction existing with
  | nil => intro newq pos entry hmem _; cases hmem
  | cons pe rest ih =>
    intro newq pos entry hmem hnd
    obtain ⟨k, e⟩ := pe
    simp only [List.map_cons, List.nodup_cons] at hnd
    rcases List.mem_cons.mp hmem with heq | hmem2
    · have h1 : k = pos := (congrArg Prod.fst heq).symm
      have h2 : e = entry := (congrArg Prod.snd heq).symm
      subst h1
      subst h2
      simp only [merge_first_loop, List.filterMap_cons]
      rcases hl : newq.lookup k with _ | q
      · rcases e with s | raw
        · simp only [List.lookup_cons, beq_self_eq_true]
        · exact lookup_eq_none_of_not_mem _ k
            (fun hmem3 => hnd.1 (by
              obtain ⟨y, hy, hyeq⟩ := List.mem_map.mp hmem3
              rw [← hyeq]
              exact merge_first_loop_keys_subset newq rest y hy))
      · simp only [List.lookup_cons, beq_self_eq_true]
    · have hkpos : (pos == k) = false := by
        have hknotin : k ∉ rest.map Prod.fst := hnd.1
        have hposmem : pos ∈ rest.map Prod.fst :=
          List.mem_map_of_mem Prod.fst hmem2
        simp only [beq_eq_false_iff_ne]
        intro hcontra
        rw [← hcontra] at hknotin
        exact hknotin hposmem
      simp only [merge_first_loop, List.filterMap_cons]
      rcases hl : newq.lookup k with _ | q
      · rcases e with s | raw
        · rw [List.lookup_cons, hkpos]
          exact ih newq pos entry hmem2 hnd.2
        · exact ih newq pos entry hmem2 hnd.2
      · rw [List.lookup_cons, hkpos]
        exact ih newq pos entry hmem2 hnd.2

/-- The second merge loop never touches a position already in the merged
dict: checkpointed (or earlier-merged) entries pass through unchanged. -/
theorem merge_second_loop_lookup :
    ∀ (pairs : List (QuestionTask × Except String PipeResult))
      (merged : List (Nat × GeneratedQuestion)) (pos : Nat),
      (merged.lookup pos).isSome →
      (merge_second_loop pairs merged).lookup pos = merged.lookup pos := by
  intro pairs
  induction pairs with
  | nil => intro merged pos _; rfl
  | cons tr rest ih =>
    intro merged pos hs
    obtain ⟨task, result⟩ := tr
    simp only [merge_second_loop]
    rcases hl : (merged.lookup task.position_index).isSome with _ | _
    · simp only [Bool.false_eq_true, if_false]
      rcases result with e | r
      · exact ih merged pos hs
      · obtain ⟨oq, od, w⟩ := r
        rcases oq with _ | q
        · exact ih merged pos hs
        · have hpres : ((merged ++ [(task.position_index, q)]).lookup pos)
              = merged.lookup pos := lookup_append_left _ _ pos hs
          rw [ih (merged ++ [(task.position_index, q)]) pos (by rw [hpres]; exact hs),
            hpres]
    · simp only [if_true]
      exact ih merged pos hs

/-- With all-restorable checkpoint entries the first merge loop keeps
exactly the checkpoint's keys, in order. -/
theorem merge_first_loop_keys :
    ∀ (existing : List (Nat × CheckpointEntry))
      (newq : List (Nat × GeneratedQuestion)),
      (∀ pe ∈ existing, ∃ s, pe.2 = CheckpointEntry.valid s) →
      (merge_first_loop existing newq).map Prod.fst
        = existing.map Prod.fst := by
  intro existing
  induction existing with
  | nil => intro newq _; rfl
  | cons pe rest ih =>
    intro newq hvalid
    obtain ⟨k, e⟩ := pe
    obtain ⟨s, hs⟩ := hvalid (k, e) (List.mem_cons_self _ _)
    simp only at hs
    subst hs
    simp only [merge_first_loop, List.filterMap_cons]
    have hrest := ih newq (fun pe hpe => hvalid pe (List.mem_cons_of_mem _ hpe))
    simp only [merge_first_loop] at hrest
    rcases hl : newq.lookup k with _ | q
    · simp only [List.map_cons]
      rw [hrest]
    · simp only [List.map_cons]
      rw [hrest]

/-- The second merge loop appends exactly the approved new positions that
are not already merged, in gather order. -/
theorem merge_second_loop_keys :
    ∀ (pairs : List (QuestionTask × Except String PipeResult))
      (merged : List (Nat × GeneratedQuestion)),
      (∀ tr ∈ pairs, tr.1.position_index ∉ merged.map Prod.fst) →
      (pairs.map (fun tr => tr.1.position_index)).Nodup →
      (merge_second_loop pairs merged).map Prod.fst
        = merged.map Prod.fst ++ pairs.filterMap approvedPosOf := by
  intro pairs
  induction pairs with
  | nil => intro merged _ _; simp [merge_second_loop]
  | cons tr rest ih =>
    intro merged hdisj hnd
    obtain ⟨task, result⟩ := tr
    simp only [List.map_cons, List.nodup_cons] at hnd
    have hnotmem : task.position_index ∉ merged.map Prod.fst :=
      hdisj (task, result) (List.mem_cons_self _ _)
    have hlook : (merged.lookup task.position_index).isSome = false := by
      rw [lookup_eq_none_of_not_mem _ _ hnotmem]
      rfl
    simp only [merge_second_loop, hlook, Bool.false_eq_true, if_false]
    rcases result with e | r
    · rw [ih merged (fun tr htr => hdisj tr (List.mem_cons_of_mem _ htr)) hnd.2]
      rfl
    · obtain ⟨oq, od, w⟩ := r
      rcases oq with _ | q
      · rw [ih merged (fun tr htr => hdisj tr (List.mem_cons_of_mem _ htr)) hnd.2]
        rfl
      · have hdisj2 : ∀ tr ∈ rest, tr.1.position_index
            ∉ (merged ++ [(task.position_index, q)]).map Prod.fst := by
          intro tr htr
          rw [List.map_append]
          intro hmem
          rcases List.mem_append.mp hmem with h | h
          · exact hdisj tr (List.mem_cons_of_mem _ htr) h
          · have : tr.1.position_index = task.position_index := by simpa using h
            exact hnd.1 (this ▸ List.mem_map_of_mem
              (fun tr => tr.1.position_index) htr)
        rw [ih (merged ++ [(task.position_index, q)]) hdisj2 hnd.2]
        simp only [List.map_append, List.filterMap_cons]
        rw [List.append_assoc]
        rfl

/-- C9: on a resume the task builder emits no task for a checkpointed
position (so generation — driven only by emitted tasks — is never
re-invoked for them), emitting exactly the remaining positions in order;
the merge restores each checkpointed entry unchanged unless a new result
exists for the same index, in which case the new result overrides it; the
second merge loop never touches merged positions; and with restorable
entries and fresh task positions the final set's keys are exactly the
checkpointed positions plus the newly approved ones (skipped positions
excluded), the final sort being a permutation of that set. -/
theorem resume_skip_and_merge_spec :
    (∀ (requirement : PaperRequirement) (already_done : List Nat)
        (kp : Nat → String),
        (∀ t ∈ dispatch requirement already_done kp,
          t.position_index ∉ already_done)
        ∧ (dispatch requirement already_done kp).map (fun t => t.position_index)
            = (List.range' 1
                (total_count requirement.question_distribution)).filter
                (fun p => !(already_done.contains p)))
    ∧ (∀ (existing : List (Nat × CheckpointEntry))
        (newq : List (Nat × GeneratedQuestion)) (pos : Nat)
        (entry : CheckpointEntry), (pos, entry) ∈ existing →
        (existing.map Prod.fst).Nodup →
        (merge_first_loop existing newq).lookup pos
          = match newq.lookup pos with
            | some q => some q
            | none =>
              match entry with
              | .valid s => some (restoreQuestion pos s)
              | .malformed _ => none)
    ∧ (∀ (pairs : List (QuestionTask × Except String PipeResult))
        (merged : List (Nat × GeneratedQuestion)) (pos : Nat),
        (merged.lookup pos).isSome →
        (merge_second_loop pairs merged).lookup pos = merged.lookup pos)
    ∧ (∀ (existing : List (Nat × CheckpointEntry))
        (pairs : List (QuestionTask × Except String PipeResult)),
        (∀ pe ∈ existing, ∃ s, pe.2 = CheckpointEntry.valid s) →
        (∀ tr ∈ pairs, tr.1.position_index ∉ existing.map Prod.fst) →
        (pairs.map (fun tr => tr.1.position_index)).Nodup →
        (merge_second_loop pairs
            (merge_first_loop existing (new_q_by_pos pairs))).map Prod.fst
          = existing.map Prod.fst ++ pairs.filterMap approvedPosOf)
    ∧ (∀ l : List (Nat × GeneratedQuestion), (sortByPosition l).Perm l) := by
  refine ⟨?_, merge_first_loop_lookup, merge_second_loop_lookup, ?_,
    fun l => List.mergeSort_perm l _⟩
  · intro requirement already_done kp
    refine ⟨dispatch_skips_checkpointed requirement already_done kp, ?_⟩
    have h := dispatch_go_positions requirement.difficulty_distribution
      already_done kp requirement.question_distribution 0
    simpa [dispatch] using h
  · intro existing pairs hvalid hdisj hnd
    have hkeys := merge_first_loop_keys existing (new_q_by_pos pairs) hvalid
    refine (merge_second_loop_keys pairs _ ?_ hnd).trans (by rw [hkeys])
    intro tr htr
    rw [hkeys]
    exact hdisj tr htr

/-- Witness for `resume_skip_and_merge_spec`: resuming a three-question
job with position 2 checkpointed dispatches exactly positions 1 and 3, and
the merge restores a checkpointed entry with no overriding new result. -/
theorem resume_skip_and_merge_spec_witness :
    (dispatch reqThree [2] (fun _ => "生物")).map (fun t => t.position_index)
        = [1, 3]
    ∧ (merge_first_loop
          [(5, CheckpointEntry.valid (serializeQuestion mediumQuestionExample))]
          []).lookup 5
        = some (restoreQuestion 5 (serializeQuestion mediumQuestionExample)) := by
  constructor
  · rw [(resume_skip_and_merge_spec.1 reqThree [2] (fun _ => "生物")).2]
    decide
  · exact resume_skip_and_merge_spec.2.1
      [(5, CheckpointEntry.valid (serializeQuestion mediumQuestionExample))]
      [] 5 (CheckpointEntry.valid (serializeQuestion mediumQuestionExample))
      (List.mem_singleton.mpr rfl) (by simp)
